import Mathlib

/-!
# Verification of the Sidian USSD gateway against its specification

This file gives a shallow embedding, in Lean 4, of the parts of the
`sidianussd1` Node.js source that the specification's claims are about:

* the upstream colon-tuple codec (`buildDataString` / `parseDataString` /
  `parseResponse`, `src/services/api.service.js`),
* PII masking for logs (`maskSensitiveData`, `src/services/api.service.js`),
* the Redis-backed session store (`src/services/session.service.js`),
* the upstream client's per-session response cache (`api.service.js`),
* the PIN action module (`src/modules/pin.module.js`),
* the menu engine (`src/services/menu.service.js`),
* the USSD turn controller (`ussd.controller.js`).

JavaScript objects are modelled as insertion-ordered association lists
(`List (String × _)`), JS strings as Lean `String`/`List Char`, and
`Date.now()` as an explicit `Nat` of milliseconds threaded through the
state.  Repository files exist in two bundled revisions; where the two
revisions of a function differ both are embedded and named.
-/

set_option maxHeartbeats 1000000

namespace Sidian

/-! ## JS string and object primitives -/

/-- JS `String.prototype.split(sep)` for a one-character separator, on the
character list of the string.  `"".split(c)` is `[""]` and a trailing
separator produces a trailing empty piece, exactly as in JS. -/
def splitOnChar (c : Char) : List Char → List (List Char)
  | [] => [[]]
  | x :: xs =>
    match splitOnChar c xs with
    | [] => [[]]
    | h :: t => if x = c then [] :: h :: t else (x :: h) :: t

/-- Assignment `obj[k] = v` on a JS object modelled as an insertion-ordered
association list: an existing key is overwritten in place, a new key is
appended at the end (JS own-property insertion order). -/
def objInsert {α : Type} (k : String) (v : α) : List (String × α) → List (String × α)
  | [] => [(k, v)]
  | (k', v') :: rest => if k' = k then (k, v) :: rest else (k', v') :: objInsert k v rest

/-- Property read `obj[k]` (JS `undefined` is `none`). -/
def objLookup {α : Type} (k : String) : List (String × α) → Option α
  | [] => none
  | (k', v) :: rest => if k' = k then some v else objLookup k rest

/-- Build a JS object from a sequence of `result[k] = v` assignments in order
(an empty object at the start). -/
def buildObj {α : Type} (pairs : List (String × α)) : List (String × α) :=
  pairs.foldl (fun acc kv => objInsert kv.1 kv.2 acc) []

/-! ## Upstream codec (`src/services/api.service.js`)

The wire format is a flat `KEY:VALUE:` tuple string.  `buildKVString` is the
final serialisation loop of `buildDataString` (the `Object.keys(allData)`
`forEach` that appends `` `${key}:${allData[key]}:` `` and skips
`undefined`/`null`/`''` values — with string values only the `''` test
remains).  `parseDataString` is the inbound pairing loop (`split(':')`, step
2, keep a pair only when both `pairs[i]` and `pairs[i+1]` are truthy). -/

def buildKVString : List (String × String) → String
  | [] => ""
  | (k, v) :: rest => (if v ≠ "" then k ++ ":" ++ v ++ ":" else "") ++ buildKVString rest

/-- The pairing loop of `parseDataString`: walk the split pieces two at a
time; a pair enters the object only when both key and value are truthy
(non-empty); a trailing unpaired piece is dropped (`pairs[i+1]` is
`undefined`, hence falsy). -/
def pairUpChars : List (List Char) → List (String × String)
  | k :: v :: rest =>
    if k ≠ [] ∧ v ≠ [] then (String.mk k, String.mk v) :: pairUpChars rest
    else pairUpChars rest
  | _ => []

/-- `parseDataString` of `api.service.js` (first revision, lines 194–206). -/
def parseDataString (s : String) : List (String × String) :=
  buildObj (pairUpChars (splitOnChar ':' s.data))

/-- Typed envelope of the first-revision `parseResponse` (lines 208–234),
which indexes the split pieces positionally: `status` is `parts[1]`. -/
structure EnvelopeArr where
  success : Bool
  status : String
  code : String
  data : List String
  raw : String
  message : Option String
  error : Option String
  retry : Option Bool := none
  deriving DecidableEq, Repr

/-- First-revision `parseResponse` (`api.service.js` lines 208–234):
positional decode, `success = (parts[1] === '000' || parts[1] === 'OK')`. -/
def parseResponse (rawResponse : String) : EnvelopeArr :=
  let parts := (splitOnChar ':' rawResponse.data).map String.mk
  if parts.length < 2 then
    { success := false
      status := "ERROR"
      code := "INVALID_RESPONSE"
      data := []
      raw := rawResponse
      message := none
      error := some "Invalid response from server" }
  else
    let status := parts.getD 1 ""
    let success := status == "000" || status == "OK"
    let p3 := parts.getD 3 ""
    { success := success
      status := status
      code := parts.getD 0 ""
      data := parts
      raw := rawResponse
      message := some (if p3 ≠ "" then p3 else if success then "Success" else "Failed")
      error := if success then none else some (if p3 ≠ "" then p3 else "Unknown error") }

/-- The pairing loop of the second-revision `parseResponse`: every adjacent
piece pair is inserted, with no truthiness filter (`if (i + 1 < lines.length)
result[lines[i]] = lines[i+1]`). -/
def pairUpAll : List (List Char) → List (String × String)
  | k :: v :: rest => (String.mk k, String.mk v) :: pairUpAll rest
  | _ => []

/-- Typed envelope of the second-revision `parseResponse` (lines 494–537):
keyed decode, `status` is `result.STATUS` (possibly `undefined`). -/
structure EnvelopeMap where
  success : Bool
  status : Option String
  code : String
  data : List (String × String)
  raw : String
  message : String
  error : Option String
  deriving DecidableEq, Repr

def successCodes : List String := ["000", "00", "0", "OK", "SUCCESS"]

/-- Second-revision `parseResponse` (`api.service.js` lines 494–537): decode
into a keyed map, `success = successCodes.includes(result.STATUS)`, failure
statuses 091/092/093 mapped to human messages. -/
def parseResponseMap (rawResponse : String) : EnvelopeMap :=
  let result := buildObj (pairUpAll (splitOnChar ':' rawResponse.data))
  let statusOpt := objLookup "STATUS" result
  let dataF := (objLookup "DATA" result).getD ""
  let messageF := (objLookup "MESSAGE" result).getD ""
  let message := if dataF ≠ "" then dataF else messageF
  let isSuccess := match statusOpt with
    | some s => decide (s ∈ successCodes)
    | none => false
  let errorMessage :=
    if isSuccess then message
    else match statusOpt with
      | some "091" => "Invalid PIN"
      | some "092" => "Account locked"
      | some "093" => "Invalid account"
      | _ => if message ≠ "" then message else "Unknown error"
  { success := isSuccess
    status := statusOpt
    code := "STATUS"
    data := result
    raw := rawResponse
    message := errorMessage
    error := if isSuccess then none else some errorMessage }

/-! ## Basic lemmas about the string/object primitives -/

theorem strMk_data (s : String) : String.mk s.data = s := by
  cases s
  rfl

theorem data_ne_nil_of_ne_empty {s : String} (h : s ≠ "") : s.data ≠ [] := by
  intro hd
  apply h
  cases s
  simp_all [String.ext_iff]

theorem splitOnChar_ne_nil (c : Char) (l : List Char) : splitOnChar c l ≠ [] := by
  cases l with
  | nil => simp [splitOnChar]
  | cons x xs =>
    simp only [splitOnChar]
    cases splitOnChar c xs with
    | nil => simp
    | cons h t => by_cases hx : x = c <;> simp [hx]

theorem splitOnChar_of_not_mem {c : Char} {l : List Char} (h : c ∉ l) :
    splitOnChar c l = [l] := by
  induction l with
  | nil => rfl
  | cons x xs ih =>
    have hx : ¬(x = c) := fun he => h (he ▸ List.mem_cons_self x xs)
    have hxs : c ∉ xs := fun hm => h (List.mem_cons_of_mem _ hm)
    simp [splitOnChar, ih hxs, hx]

theorem splitOnChar_append {c : Char} {rest : List Char} (l : List Char) (h : c ∉ l) :
    splitOnChar c (l ++ c :: rest) = l :: splitOnChar c rest := by
  induction l with
  | nil =>
    simp only [List.nil_append, splitOnChar]
    cases hr : splitOnChar c rest with
    | nil => exact absurd hr (splitOnChar_ne_nil c rest)
    | cons a t => simp
  | cons x xs ih =>
    have hx : ¬(x = c) := fun he => h (he ▸ List.mem_cons_self x xs)
    have hxs : c ∉ xs := fun hm => h (List.mem_cons_of_mem _ hm)
    simp only [List.cons_append, splitOnChar, List.append_eq, ih hxs, hx, if_false]

theorem objInsert_of_not_mem {α : Type} {k : String} {v : α} {l : List (String × α)}
    (h : k ∉ l.map Prod.fst) : objInsert k v l = l ++ [(k, v)] := by
  induction l with
  | nil => rfl
  | cons p rest ih =>
    obtain ⟨k', v'⟩ := p
    simp only [List.map_cons, List.mem_cons] at h
    push_neg at h
    simp only [objInsert, ih h.2]
    rw [if_neg (fun he => h.1 he.symm)]
    simp

theorem buildObjAux_eq {α : Type} (pairs : List (String × α)) :
    ∀ acc : List (String × α), (pairs.map Prod.fst).Nodup →
    (∀ p ∈ pairs, p.1 ∉ acc.map Prod.fst) →
    List.foldl (fun acc kv => objInsert kv.1 kv.2 acc) acc pairs = acc ++ pairs := by
  induction pairs with
  | nil => simp
  | cons p ps ih =>
    intro acc hnd hdisj
    obtain ⟨k, v⟩ := p
    simp only [List.map_cons, List.nodup_cons] at hnd
    simp only [List.foldl_cons]
    rw [objInsert_of_not_mem (hdisj _ (List.mem_cons_self _ _))]
    rw [ih (acc ++ [(k, v)]) hnd.2 ?_]
    · simp
    · intro q hq
      simp only [List.map_append, List.mem_append, List.map_cons, List.map_nil,
        List.mem_singleton, not_or]
      refine ⟨hdisj q (List.mem_cons_of_mem _ hq), ?_⟩
      intro he
      exact hnd.1 (he ▸ List.mem_map_of_mem Prod.fst hq)

theorem buildObj_of_nodup {α : Type} (pairs : List (String × α))
    (hnd : (pairs.map Prod.fst).Nodup) : buildObj pairs = pairs := by
  simpa [buildObj] using buildObjAux_eq pairs [] hnd (by simp)

/-! ## C6: codec round trip -/

theorem pairUpChars_split (M : List (String × String))
    (hok : ∀ p ∈ M, p.1 ≠ "" ∧ p.2 ≠ "" ∧ ':' ∉ p.1.data ∧ ':' ∉ p.2.data) :
    pairUpChars (splitOnChar ':' (buildKVString M).data) = M := by
  induction M with
  | nil => rfl
  | cons p rest ih =>
    obtain ⟨k, v⟩ := p
    obtain ⟨hk, hv, hkc, hvc⟩ := hok _ (List.mem_cons_self _ _)
    have hbuild : buildKVString ((k, v) :: rest) =
        k ++ ":" ++ v ++ ":" ++ buildKVString rest := by
      simp [buildKVString, hv]
    have hdata : (buildKVString ((k, v) :: rest)).data =
        k.data ++ ':' :: (v.data ++ ':' :: (buildKVString rest).data) := by
      rw [hbuild]
      simp [String.data_append]
    rw [hdata, splitOnChar_append k.data hkc, splitOnChar_append v.data hvc]
    simp only [pairUpChars, data_ne_nil_of_ne_empty hk, data_ne_nil_of_ne_empty hv,
      ne_eq, not_false_eq_true, and_self, if_true, strMk_data]
    rw [ih (fun q hq => hok q (List.mem_cons_of_mem _ hq))]

/-- C6: for maps whose keys and values are non-empty and colon-free, parsing
the encoded `KEY:VALUE:` string yields the map back.  (The claim as frozen
omits the colon-freeness requirement; see the counterexample.) -/
theorem C6_parse_encode_roundtrip (M : List (String × String))
    (hnd : (M.map Prod.fst).Nodup)
    (hok : ∀ p ∈ M, p.1 ≠ "" ∧ p.2 ≠ "" ∧ ':' ∉ p.1.data ∧ ':' ∉ p.2.data) :
    parseDataString (buildKVString M) = M := by
  unfold parseDataString
  rw [pairUpChars_split M hok, buildObj_of_nodup M hnd]

/-- Witness for C6 at a concrete two-entry map. -/
theorem C6_parse_encode_roundtrip_witness :
    ((([("FORMID", "LOGIN"), ("CUSTOMERID", "77")] : List (String × String)).map
        Prod.fst).Nodup ∧
      (∀ p ∈ ([("FORMID", "LOGIN"), ("CUSTOMERID", "77")] : List (String × String)),
        p.1 ≠ "" ∧ p.2 ≠ "" ∧ ':' ∉ p.1.data ∧ ':' ∉ p.2.data)) ∧
    parseDataString (buildKVString [("FORMID", "LOGIN"), ("CUSTOMERID", "77")]) =
      [("FORMID", "LOGIN"), ("CUSTOMERID", "77")] :=
  ⟨⟨by decide, by decide⟩,
    C6_parse_encode_roundtrip _ (by decide) (by decide)⟩

/-- C6 counterexample: the map `{A ↦ "x:y"}` has no empty and no null values,
yet `parseDataString (buildKVString M) = [("A", "x")] ≠ M` — a value
containing `':'` does not survive the round trip. -/
theorem C6_claim_false_at_colon_value :
    (∀ p ∈ ([("A", "x:y")] : List (String × String)), p.1 ≠ "" ∧ p.2 ≠ "") ∧
    parseDataString (buildKVString [("A", "x:y")]) ≠ [("A", "x:y")] := by
  constructor
  · decide
  · decide

/-! ## C3: success predicate of the two `parseResponse` revisions -/

/-- C3 (amended): the keyed second-revision `parseResponse` marks the envelope
successful exactly when the parsed `STATUS` value is one of
`000/00/0/OK/SUCCESS`; the positional first-revision `parseResponse` instead
marks it successful exactly when its (positional) status `parts[1]` is `000`
or `OK`. -/
theorem C3_parseResponse_success_iff (raw : String) :
    ((parseResponseMap raw).success = true ↔
      ∃ s, (parseResponseMap raw).status = some s ∧ s ∈ successCodes) ∧
    ((parseResponse raw).success = true ↔
      (parseResponse raw).status = "000" ∨ (parseResponse raw).status = "OK") := by
  constructor
  · simp only [parseResponseMap]
    cases hs : objLookup "STATUS" (buildObj (pairUpAll (splitOnChar ':' raw.data))) with
    | none => simp [hs]
    | some s => simp [hs]
  · simp only [parseResponse]
    split
    · simp
    · simp [Bool.or_eq_true, beq_iff_eq]

/-- C3 counterexample: on the raw response `STATUS:00:DATA:ok:` the
first-revision `parseResponse` parses status `00` — one of the five claimed
success codes — yet marks the envelope unsuccessful (its success set is
`{000, OK}` only); the second revision marks it successful. -/
theorem C3_claim_false_for_positional_parseResponse :
    (parseResponse "STATUS:00:DATA:ok:").status = "00" ∧
    "00" ∈ successCodes ∧
    (parseResponse "STATUS:00:DATA:ok:").success = false ∧
    (parseResponseMap "STATUS:00:DATA:ok:").success = true := by
  refine ⟨by decide, by decide, by decide, by decide⟩

/-! ## JSON values and the Redis store model

Session blobs and slot payloads are `JSON.stringify`-ed on write and
`JSON.parse`-d on read; since that encoding is lossless for the values this
program stores, the store is modelled at the parsed level. -/

inductive JsonVal where
  | null
  | bool (b : Bool)
  | num (n : Int)
  | str (s : String)
  | arr (xs : List JsonVal)
  | obj (fields : List (String × JsonVal))
  deriving Repr

/-- A value held at a Redis key: the `:start` anchor holds the creation
millis as a decimal string (`Date.now().toString()`, read back with
`parseInt`, a lossless round trip, hence kept as the number), everything
else is stringified JSON. -/
inductive StoredVal where
  | millis (n : Nat)
  | json (j : JsonVal)
  | cache (response : EnvelopeArr) (timestamp : Nat)
  deriving Repr

/-- The Redis store: keys mapped to a value and its absolute expiry time in
milliseconds (a key set with TTL `t` seconds at time `now` expires at
`now + 1000*t`). -/
abbrev RStore := List (String × StoredVal × Nat)

/-- `redis.get`: a key reads back while unexpired. -/
def rget (st : RStore) (now : Nat) (key : String) : Option StoredVal :=
  match objLookup key st with
  | some (v, exp) => if now < exp then some v else none
  | none => none

/-- `redis.set(key, value, ttlSeconds)`. -/
def rset (st : RStore) (now : Nat) (key : String) (v : StoredVal) (ttlSec : Nat) : RStore :=
  objInsert key (v, now + ttlSec * 1000) st

/-- `redis.del(key)`. -/
def rdel (st : RStore) (key : String) : RStore :=
  st.filter (fun kv => kv.1 ≠ key)

/-! ## Session store (`src/services/session.service.js`)

Both bundled revisions of `session.service.js` define these operations
identically (they differ only in `ensureConnection`, whose success is
assumed here: the spec treats store availability as an external condition). -/

def ttlSeconds : Nat := 300

def sessionPrefix : String := "ussd:session"

/-- `` `${prefix}:${msisdn}:${sessionId}:${shortcode || 'default'}` ``
(a missing/empty shortcode falls back to `default`). -/
def getSessionKey (msisdn sessionId shortcode : String) : String :=
  sessionPrefix ++ ":" ++ msisdn ++ ":" ++ sessionId ++ ":" ++
    (if shortcode ≠ "" then shortcode else "default")

/-- `moment().tz(timezone).format('YYYY-MM-DD HH:mm:ss')`: the local-time
rendering of the wall clock, abstracted as an injective rendering of the
millisecond clock (the program only ever stores and displays it). -/
def formatLocalTime (now : Nat) : String :=
  "time:" ++ toString now

/-- The default session record built by `createSession`, in JS property
insertion order. -/
def newSessionObj (msisdn sessionId shortcode : String) (now : Nat) :
    List (String × JsonVal) :=
  [("sessionId", .str sessionId),
   ("msisdn", .str msisdn),
   ("shortcode", .str shortcode),
   ("currentMenu", .str "home"),
   ("customerData", .null),
   ("authStatus", .str "pending"),
   ("transactionData", .obj []),
   ("menuHistory", .arr [.str "home"]),
   ("flowState", .obj []),
   ("sessionStart", .str (formatLocalTime now)),
   ("lastActivity", .str (formatLocalTime now)),
   ("sessionEnd", .str (formatLocalTime (now + ttlSeconds * 1000))),
   ("createdAt", .num now),
   ("transactionCount", .num 0),
   ("lastTransaction", .null)]

/-- `createSession`: write the default record with TTL and a sibling
`:start` anchor holding the creation millis, with the same TTL. -/
def createSession (st : RStore) (now : Nat) (msisdn sessionId shortcode : String) :
    RStore × List (String × JsonVal) :=
  let sessionKey := getSessionKey msisdn sessionId shortcode
  let sessionData := newSessionObj msisdn sessionId shortcode now
  let st1 := rset st now sessionKey (.json (.obj sessionData)) ttlSeconds
  let st2 := rset st1 now (sessionKey ++ ":start") (.millis now) ttlSeconds
  (st2, sessionData)

/-- `getSession`: parse the stored blob, stamp `lastActivity`, write it back
(refreshing the TTL), return it; absent (or expired) key returns `null`.
The `:start` anchor is not touched. -/
def getSession (st : RStore) (now : Nat) (msisdn sessionId shortcode : String) :
    RStore × Option (List (String × JsonVal)) :=
  let sessionKey := getSessionKey msisdn sessionId shortcode
  match rget st now sessionKey with
  | some (.json (.obj fields)) =>
    let session := objInsert "lastActivity" (.str (formatLocalTime now)) fields
    (rset st now sessionKey (.json (.obj session)) ttlSeconds, some session)
  | _ => (st, none)

/-- `Object.assign(target, source)`: each own property of `source`, in
order, is assigned onto `target` — a shallow merge. -/
def jsAssign (target source : List (String × JsonVal)) : List (String × JsonVal) :=
  source.foldl (fun acc kv => objInsert kv.1 kv.2 acc) target

/-- `updateSession`: read the blob, `Object.assign(session, updates)`, stamp
`lastActivity`, write back with TTL. -/
def updateSession (st : RStore) (now : Nat) (msisdn sessionId shortcode : String)
    (updates : List (String × JsonVal)) : RStore × Option (List (String × JsonVal)) :=
  let sessionKey := getSessionKey msisdn sessionId shortcode
  match rget st now sessionKey with
  | some (.json (.obj fields)) =>
    let merged := jsAssign fields updates
    let session := objInsert "lastActivity" (.str (formatLocalTime now)) merged
    (rset st now sessionKey (.json (.obj session)) ttlSeconds, some session)
  | _ => (st, none)

/-- `store(msisdn, sessionId, shortcode, key, value)`: slot write under the
derived key `<sessionKey>:<key>`, with the session TTL. -/
def storeSlot (st : RStore) (now : Nat) (msisdn sessionId shortcode slot : String)
    (value : StoredVal) : RStore :=
  rset st now (getSessionKey msisdn sessionId shortcode ++ ":" ++ slot)
    value ttlSeconds

/-- `grab`: slot read (no TTL refresh). -/
def grabSlot (st : RStore) (now : Nat) (msisdn sessionId shortcode slot : String) :
    Option StoredVal :=
  rget st now (getSessionKey msisdn sessionId shortcode ++ ":" ++ slot)

/-- `blank` for a single slot name: delete the derived key. -/
def blankSlot (st : RStore) (msisdn sessionId shortcode slot : String) : RStore :=
  rdel st (getSessionKey msisdn sessionId shortcode ++ ":" ++ slot)

/-- `clearSession`: delete the session key and the `:start` anchor — and
nothing else (slot keys are left to expire by TTL). -/
def clearSession (st : RStore) (msisdn sessionId shortcode : String) : RStore :=
  let sessionKey := getSessionKey msisdn sessionId shortcode
  rdel (rdel st sessionKey) (sessionKey ++ ":start")

/-- `getSessionTimeElapsed`: `(Date.now() − parseInt(start)) / 1000`, `0`
when the anchor is absent. -/
def getSessionTimeElapsed (st : RStore) (now : Nat) (msisdn sessionId shortcode : String) :
    Nat :=
  match rget st now (getSessionKey msisdn sessionId shortcode ++ ":start") with
  | some (.millis start) => (now - start) / 1000
  | _ => 0

/-! ## Lookup lemmas for the object and store primitives -/

theorem objLookup_objInsert_self {α : Type} (k : String) (v : α)
    (l : List (String × α)) : objLookup k (objInsert k v l) = some v := by
  induction l with
  | nil => simp [objInsert, objLookup]
  | cons p rest ih =>
    obtain ⟨k', v'⟩ := p
    by_cases h : k' = k <;> simp [objInsert, objLookup, h, ih]

theorem objLookup_objInsert_ne {α : Type} {k k' : String} (h : k ≠ k') (v : α)
    (l : List (String × α)) : objLookup k (objInsert k' v l) = objLookup k l := by
  have h' : ¬(k' = k) := fun he => h he.symm
  induction l with
  | nil => simp [objInsert, objLookup, h']
  | cons p rest ih =>
    obtain ⟨k'', v''⟩ := p
    by_cases h2 : k'' = k'
    · subst h2
      simp [objInsert, objLookup, h']
    · by_cases h3 : k'' = k <;> simp [objInsert, objLookup, h2, h3, ih, h]

theorem objLookup_eq_none {α : Type} {k : String} {l : List (String × α)}
    (h : k ∉ l.map Prod.fst) : objLookup k l = none := by
  induction l with
  | nil => rfl
  | cons p rest ih =>
    obtain ⟨k', v'⟩ := p
    simp only [List.map_cons, List.mem_cons] at h
    push_neg at h
    have h' : ¬(k' = k) := fun he => h.1 he.symm
    simp [objLookup, h', ih h.2]

theorem jsAssign_lookup (t : List (String × JsonVal)) (s : List (String × JsonVal))
    (hnd : (s.map Prod.fst).Nodup) (k : String) :
    objLookup k (jsAssign t s) =
      match objLookup k s with
      | some v => some v
      | none => objLookup k t := by
  induction s generalizing t with
  | nil => simp [jsAssign, objLookup]
  | cons p s' ih =>
    obtain ⟨k₁, v₁⟩ := p
    simp only [List.map_cons, List.nodup_cons] at hnd
    have hstep : jsAssign t ((k₁, v₁) :: s') = jsAssign (objInsert k₁ v₁ t) s' := rfl
    rw [hstep, ih (objInsert k₁ v₁ t) hnd.2]
    by_cases hk : k₁ = k
    · subst hk
      rw [objLookup_eq_none (by simpa using hnd.1)]
      simp [objLookup, objLookup_objInsert_self]
    · simp only [objLookup, hk, if_false]
      cases objLookup k s' with
      | some v => rfl
      | none => simp [objLookup_objInsert_ne (fun he => hk he.symm)]

theorem objLookup_rdel_ne {key k : String} (h : k ≠ key) (st : RStore) :
    objLookup k (rdel st key) = objLookup k st := by
  have h' : ¬(key = k) := fun he => h he.symm
  induction st with
  | nil => rfl
  | cons p rest ih =>
    obtain ⟨k', v⟩ := p
    by_cases h2 : k' = key
    · subst h2
      have hdrop : rdel ((k', v) :: rest) k' = rdel rest k' := by
        simp [rdel, List.filter_cons]
      rw [hdrop, ih]
      simp [objLookup, h']
    · by_cases h3 : k' = k <;> simp_all [rdel, objLookup, List.filter_cons]

theorem self_ne_append {s t : String} (h : t ≠ "") : s ≠ s ++ t := by
  intro he
  have hlen := congrArg (fun x => x.data.length) he
  simp only [String.data_append, List.length_append] at hlen
  have hz : t.data.length = 0 := by omega
  exact data_ne_nil_of_ne_empty h (List.length_eq_zero.mp hz)

/-! ## C4: `updateSession` merges shallowly -/

/-- C4 (amended): `updateSession` applies the patch with `Object.assign` — a
*shallow* merge, so every top-level patch field replaces the stored field
wholesale (nested objects included, not merged field-by-field) — stamps
`lastActivity` with the current time, and writes the result back under the
session key with the session TTL.  The returned record holds each patch
field exactly, leaves non-patched top-level fields (in particular
`currentMenu`) unchanged, and refreshes `lastActivity`. -/
theorem C4_updateSession_shallow (st : RStore) (now : Nat)
    (msisdn sid sc : String) (fields patch : List (String × JsonVal)) (exp : Nat)
    (hsess : objLookup (getSessionKey msisdn sid sc) st =
      some (.json (.obj fields), exp))
    (hlive : now < exp)
    (hnd : (patch.map Prod.fst).Nodup) :
    updateSession st now msisdn sid sc patch =
      (rset st now (getSessionKey msisdn sid sc)
        (.json (.obj (objInsert "lastActivity" (.str (formatLocalTime now))
          (jsAssign fields patch)))) ttlSeconds,
       some (objInsert "lastActivity" (.str (formatLocalTime now))
          (jsAssign fields patch))) ∧
    (∀ k v, objLookup k patch = some v → k ≠ "lastActivity" →
      objLookup k (objInsert "lastActivity" (.str (formatLocalTime now))
        (jsAssign fields patch)) = some v) ∧
    (∀ k, k ∉ patch.map Prod.fst → k ≠ "lastActivity" →
      objLookup k (objInsert "lastActivity" (.str (formatLocalTime now))
        (jsAssign fields patch)) = objLookup k fields) ∧
    objLookup "lastActivity" (objInsert "lastActivity" (.str (formatLocalTime now))
      (jsAssign fields patch)) = some (.str (formatLocalTime now)) ∧
    rget (updateSession st now msisdn sid sc patch).1 now
      (getSessionKey msisdn sid sc) =
      some (.json (.obj (objInsert "lastActivity" (.str (formatLocalTime now))
        (jsAssign fields patch)))) := by
  have hget : rget st now (getSessionKey msisdn sid sc) =
      some (.json (.obj fields)) := by
    simp [rget, hsess, hlive]
  have hupd : updateSession st now msisdn sid sc patch =
      (rset st now (getSessionKey msisdn sid sc)
        (.json (.obj (objInsert "lastActivity" (.str (formatLocalTime now))
          (jsAssign fields patch)))) ttlSeconds,
       some (objInsert "lastActivity" (.str (formatLocalTime now))
          (jsAssign fields patch))) := by
    simp [updateSession, hget]
  refine ⟨hupd, ?_, ?_, ?_, ?_⟩
  · intro k v hk hne
    rw [objLookup_objInsert_ne hne, jsAssign_lookup _ _ hnd, hk]
  · intro k hk hne
    rw [objLookup_objInsert_ne hne, jsAssign_lookup _ _ hnd,
      objLookup_eq_none hk]
  · exact objLookup_objInsert_self _ _ _
  · rw [hupd]
    simp only [rset]
    rw [rget, objLookup_objInsert_self]
    simp only [ttlSeconds]
    rw [if_pos (by omega)]

def c4Key : String := getSessionKey "254700111222" "S1" "527"

def c4Fields : List (String × JsonVal) := newSessionObj "254700111222" "S1" "527" 0

def c4Store : RStore := [(c4Key, (.json (.obj c4Fields), 300000))]

/-- Witness for C4: the concrete patch `{currentMenu: "main_menu"}` on a
freshly created session record. -/
theorem C4_updateSession_shallow_witness :
    (objLookup (getSessionKey "254700111222" "S1" "527") c4Store =
        some (.json (.obj c4Fields), 300000) ∧
      (5000 : Nat) < 300000 ∧
      (([("currentMenu", JsonVal.str "main_menu")].map Prod.fst)).Nodup) ∧
    (updateSession c4Store 5000 "254700111222" "S1" "527"
        [("currentMenu", JsonVal.str "main_menu")] =
      (rset c4Store 5000 (getSessionKey "254700111222" "S1" "527")
        (.json (.obj (objInsert "lastActivity" (.str (formatLocalTime 5000))
          (jsAssign c4Fields [("currentMenu", JsonVal.str "main_menu")])))) ttlSeconds,
       some (objInsert "lastActivity" (.str (formatLocalTime 5000))
          (jsAssign c4Fields [("currentMenu", JsonVal.str "main_menu")]))) ∧
    (∀ k v, objLookup k [("currentMenu", JsonVal.str "main_menu")] = some v →
      k ≠ "lastActivity" →
      objLookup k (objInsert "lastActivity" (.str (formatLocalTime 5000))
        (jsAssign c4Fields [("currentMenu", JsonVal.str "main_menu")])) = some v) ∧
    (∀ k, k ∉ ([("currentMenu", JsonVal.str "main_menu")].map Prod.fst) →
      k ≠ "lastActivity" →
      objLookup k (objInsert "lastActivity" (.str (formatLocalTime 5000))
        (jsAssign c4Fields [("currentMenu", JsonVal.str "main_menu")])) =
        objLookup k c4Fields) ∧
    objLookup "lastActivity" (objInsert "lastActivity" (.str (formatLocalTime 5000))
      (jsAssign c4Fields [("currentMenu", JsonVal.str "main_menu")])) =
      some (.str (formatLocalTime 5000)) ∧
    rget (updateSession c4Store 5000 "254700111222" "S1" "527"
        [("currentMenu", JsonVal.str "main_menu")]).1 5000
      (getSessionKey "254700111222" "S1" "527") =
      some (.json (.obj (objInsert "lastActivity" (.str (formatLocalTime 5000))
        (jsAssign c4Fields [("currentMenu", JsonVal.str "main_menu")]))))) :=
  ⟨⟨rfl, by omega, by simp⟩,
    C4_updateSession_shallow c4Store 5000 "254700111222" "S1" "527" c4Fields
      [("currentMenu", JsonVal.str "main_menu")] 300000 rfl (by omega) (by simp)⟩

def c4nStore : RStore :=
  [(getSessionKey "254700111222" "S2" "527",
    (.json (.obj [("currentMenu", .str "main_menu"),
                  ("customerData", .obj [("a", .num 1), ("b", .num 2)])]), 600000))]

def c4nUpdated : List (String × JsonVal) :=
  ((updateSession c4nStore 1000 "254700111222" "S2" "527"
      [("customerData", .obj [("b", .num 3)])]).2).getD []

/-- Read a field of a nested object-valued field. -/
def innerLookup (outer inner : String) (o : List (String × JsonVal)) : Option JsonVal :=
  match objLookup outer o with
  | some (.obj f) => objLookup inner f
  | _ => none

/-- C4 counterexample: the stored session's `customerData` holds
`{a: 1, b: 2}`; patching with `{customerData: {b: 3}}` leaves
`customerData = {b: 3}` — the nested field `a` is dropped, because
`Object.assign` replaces nested objects wholesale instead of merging them
field-by-field as the claim states. -/
theorem C4_claim_false_nested_replaced :
    innerLookup "customerData" "a"
        [("currentMenu", .str "main_menu"),
         ("customerData", .obj [("a", .num 1), ("b", .num 2)])] = some (.num 1) ∧
    innerLookup "customerData" "b" c4nUpdated = some (.num 3) ∧
    innerLookup "customerData" "a" c4nUpdated = none :=
  ⟨rfl, rfl, rfl⟩

/-! ## C1: session expiry on a late turn

`processUssdRequest` (first-revision `ussd.controller.js`, lines 60–73)
acquires the session and applies the TTL check before any menu work. -/

/-- The session acquisition and expiry phase of `processUssdRequest`: get
the session (creating one when absent), then — when the elapsed seconds
since the `:start` anchor exceed the TTL — clear the session and create a
fresh one for the rest of the turn. -/
def turnSessionPhase (st : RStore) (now : Nat) (msisdn sessionId shortcode : String) :
    RStore × List (String × JsonVal) :=
  let got := getSession st now msisdn sessionId shortcode
  let afterGet :=
    match got.2 with
    | some s => (got.1, s)
    | none => createSession got.1 now msisdn sessionId shortcode
  let elapsed := getSessionTimeElapsed afterGet.1 now msisdn sessionId shortcode
  if elapsed > ttlSeconds then
    createSession (clearSession afterGet.1 msisdn sessionId shortcode)
      now msisdn sessionId shortcode
  else afterGet

theorem newSessionObj_currentMenu (m s c : String) (n : Nat) :
    objLookup "currentMenu" (newSessionObj m s c n) = some (.str "home") := rfl

theorem newSessionObj_customerData (m s c : String) (n : Nat) :
    objLookup "customerData" (newSessionObj m s c n) = some .null := rfl

/-- C1 (amended): on a turn where the stored session is live and the elapsed
seconds since the `:start` anchor exceed the TTL, the handler clears the
session record and the anchor and creates a fresh one: the turn observes the
fresh default session (`currentMenu = "home"`, `customerData = null`, fresh
anchor) — but slots are *not* deleted: every key other than the session key
and its `:start` anchor is untouched by the phase, so an unexpired slot of
the old conversation remains retrievable. -/
theorem C1_expired_turn_fresh_session (st : RStore) (now : Nat)
    (msisdn sid sc : String) (fields : List (String × JsonVal))
    (exp exps start : Nat)
    (hsess : objLookup (getSessionKey msisdn sid sc) st =
      some (.json (.obj fields), exp))
    (hlive : now < exp)
    (hstart : objLookup (getSessionKey msisdn sid sc ++ ":start") st =
      some (.millis start, exps))
    (hslive : now < exps)
    (hexp : (now - start) / 1000 > ttlSeconds) :
    (turnSessionPhase st now msisdn sid sc).2 = newSessionObj msisdn sid sc now ∧
    objLookup "currentMenu" (turnSessionPhase st now msisdn sid sc).2 =
      some (.str "home") ∧
    objLookup "customerData" (turnSessionPhase st now msisdn sid sc).2 =
      some .null ∧
    rget (turnSessionPhase st now msisdn sid sc).1 now (getSessionKey msisdn sid sc) =
      some (.json (.obj (newSessionObj msisdn sid sc now))) ∧
    rget (turnSessionPhase st now msisdn sid sc).1 now
      (getSessionKey msisdn sid sc ++ ":start") = some (.millis now) ∧
    (∀ k, k ≠ getSessionKey msisdn sid sc →
      k ≠ getSessionKey msisdn sid sc ++ ":start" →
      objLookup k (turnSessionPhase st now msisdn sid sc).1 = objLookup k st) := by
  have hne1 : getSessionKey msisdn sid sc ++ ":start" ≠ getSessionKey msisdn sid sc :=
    Ne.symm (self_ne_append (by decide))
  have hne2 : getSessionKey msisdn sid sc ≠ getSessionKey msisdn sid sc ++ ":start" :=
    self_ne_append (by decide)
  have hget2 : getSession st now msisdn sid sc =
      (rset st now (getSessionKey msisdn sid sc)
        (.json (.obj (objInsert "lastActivity" (.str (formatLocalTime now)) fields)))
        ttlSeconds,
       some (objInsert "lastActivity" (.str (formatLocalTime now)) fields)) := by
    simp [getSession, rget, hsess, hlive]
  have helap : getSessionTimeElapsed
      (rset st now (getSessionKey msisdn sid sc)
        (.json (.obj (objInsert "lastActivity" (.str (formatLocalTime now)) fields)))
        ttlSeconds) now msisdn sid sc = (now - start) / 1000 := by
    simp [getSessionTimeElapsed, rget, rset, objLookup_objInsert_ne hne1,
      hstart, hslive]
  have hphase : turnSessionPhase st now msisdn sid sc =
      createSession (clearSession (rset st now (getSessionKey msisdn sid sc)
          (.json (.obj (objInsert "lastActivity" (.str (formatLocalTime now)) fields)))
          ttlSeconds) msisdn sid sc) now msisdn sid sc := by
    simp only [turnSessionPhase, hget2, helap]
    rw [if_pos hexp]
  rw [hphase]
  refine ⟨rfl, newSessionObj_currentMenu _ _ _ _, newSessionObj_customerData _ _ _ _,
    ?_, ?_, ?_⟩
  · show rget (rset (rset _ now (getSessionKey msisdn sid sc) _ ttlSeconds) now
      (getSessionKey msisdn sid sc ++ ":start") _ ttlSeconds) now
      (getSessionKey msisdn sid sc) = _
    rw [rget, rset, rset, objLookup_objInsert_ne hne2, objLookup_objInsert_self]
    have hlt : now < now + ttlSeconds * 1000 := by
      simp only [ttlSeconds]
      omega
    simp [hlt]
  · show rget (rset (rset _ now (getSessionKey msisdn sid sc) _ ttlSeconds) now
      (getSessionKey msisdn sid sc ++ ":start") _ ttlSeconds) now
      (getSessionKey msisdn sid sc ++ ":start") = _
    rw [rget, rset, objLookup_objInsert_self]
    have hlt : now < now + ttlSeconds * 1000 := by
      simp only [ttlSeconds]
      omega
    simp [hlt]
  · intro k hk1 hk2
    show objLookup k (rset (rset _ now (getSessionKey msisdn sid sc) _ ttlSeconds) now
      (getSessionKey msisdn sid sc ++ ":start") _ ttlSeconds) = _
    rw [rset, rset, objLookup_objInsert_ne hk2, objLookup_objInsert_ne hk1]
    show objLookup k (rdel (rdel _ (getSessionKey msisdn sid sc))
      (getSessionKey msisdn sid sc ++ ":start")) = _
    rw [objLookup_rdel_ne hk2, objLookup_rdel_ne hk1]
    exact objLookup_objInsert_ne hk1 _ _

def c1Key : String := getSessionKey "254700111222" "S1" "527"

def c1Fields : List (String × JsonVal) := newSessionObj "254700111222" "S1" "527" 0

/-- A store holding a session created at t≈0 whose TTL was refreshed by an
intermediate turn (session and anchor both live until t=500 s), and a
`pin_attempt` slot written late in the old conversation (live until
t=500 s as well). -/
def c1Store : RStore :=
  [(c1Key, (.json (.obj c1Fields), 500000)),
   (c1Key ++ ":start", (.millis 0, 500000)),
   (c1Key ++ ":pin_attempt", (.json (.str "9999"), 500000))]

/-- Witness for C1 (amended) at the concrete store `c1Store`, turn at
t = 301 s (elapsed 301 s > TTL 300 s). -/
theorem C1_expired_turn_fresh_session_witness :
    (objLookup (getSessionKey "254700111222" "S1" "527") c1Store =
        some (.json (.obj c1Fields), 500000) ∧
      (301000 : Nat) < 500000 ∧
      objLookup (getSessionKey "254700111222" "S1" "527" ++ ":start") c1Store =
        some (.millis 0, 500000) ∧
      ((301000 : Nat) - 0) / 1000 > ttlSeconds) ∧
    ((turnSessionPhase c1Store 301000 "254700111222" "S1" "527").2 =
        newSessionObj "254700111222" "S1" "527" 301000 ∧
      objLookup "currentMenu" (turnSessionPhase c1Store 301000 "254700111222" "S1" "527").2 =
        some (.str "home") ∧
      objLookup "customerData" (turnSessionPhase c1Store 301000 "254700111222" "S1" "527").2 =
        some .null ∧
      rget (turnSessionPhase c1Store 301000 "254700111222" "S1" "527").1 301000
        (getSessionKey "254700111222" "S1" "527") =
        some (.json (.obj (newSessionObj "254700111222" "S1" "527" 301000))) ∧
      rget (turnSessionPhase c1Store 301000 "254700111222" "S1" "527").1 301000
        (getSessionKey "254700111222" "S1" "527" ++ ":start") = some (.millis 301000) ∧
      (∀ k, k ≠ getSessionKey "254700111222" "S1" "527" →
        k ≠ getSessionKey "254700111222" "S1" "527" ++ ":start" →
        objLookup k (turnSessionPhase c1Store 301000 "254700111222" "S1" "527").1 =
          objLookup k c1Store)) :=
  ⟨⟨rfl, by omega, rfl, by decide⟩,
    C1_expired_turn_fresh_session c1Store 301000 "254700111222" "S1" "527" c1Fields
      500000 500000 0 rfl (by omega) rfl (by omega) (by decide)⟩

/-- C1 counterexample: at the same concrete store, the expired turn does get
a fresh `home` session, but the old `pin_attempt` slot — written within the
last TTL window of the old conversation — is still retrievable by the fresh
turn: `clearSession` deletes only the session key and the anchor, so "no
retained slots" fails. -/
theorem C1_claim_false_slot_retained :
    getSessionTimeElapsed c1Store 301000 "254700111222" "S1" "527" > ttlSeconds ∧
    objLookup "currentMenu" (turnSessionPhase c1Store 301000 "254700111222" "S1" "527").2 =
      some (.str "home") ∧
    grabSlot (turnSessionPhase c1Store 301000 "254700111222" "S1" "527").1 301000
      "254700111222" "S1" "527" "pin_attempt" = some (.json (.str "9999")) :=
  ⟨by decide, rfl, rfl⟩

/-! ## C5: upstream client and per-session response cache
(`src/services/api.service.js`, first revision, `call` lines 76–153,
`getFromCache`/`cacheResponse` lines 236–274) -/

/-- The environment configuration consumed by `buildDataString` and `call`
(`process.env.*`; an unset variable is `undefined`, hence `Option`). -/
structure ApiConfig where
  baseURL : String
  bankId : Option String
  bankName : Option String
  elmaShortcode : Option String
  country : Option String
  trxSource : Option String

/-- The customer-data slice of the in-memory session object that
`buildDataString` reads. -/
structure CustomerData where
  customerid : Option String
  accounts : Option (List String)

/-- The slice of the in-memory session object that the upstream client
reads (fields may be absent on the bare `{}` default). -/
structure UssdSession where
  msisdn : Option String
  sessionId : Option String
  shortcode : Option String
  customerData : Option CustomerData

/-- `Object.assign`-style spread for arbitrary value types
(`{...base, ...additional}`: later entries overwrite in place or append). -/
def jsAssignG {α : Type} (target source : List (String × α)) : List (String × α) :=
  source.foldl (fun acc kv => objInsert kv.1 kv.2 acc) target

/-- The final serialisation loop of `buildDataString` over the merged
object: skip `undefined`/`null`/`''` values, append `` `${key}:${value}:` ``. -/
def encodeOptKV : List (String × Option String) → String
  | [] => ""
  | (k, ov) :: rest =>
    (match ov with
     | some v => if v ≠ "" then k ++ ":" ++ v ++ ":" else ""
     | none => "") ++ encodeOptKV rest

/-- `buildDataString(serviceName, data, session, requestId, deviceId)`
(first revision, lines 155–192): base keys from session and config,
`CUSTOMERID`/`BANKACCOUNTS` when known, additional caller data parsed from
`data` and merged on top (caller wins), then serialised. -/
def buildDataString (cfg : ApiConfig) (serviceName dataStr : String)
    (s : UssdSession) (requestId deviceId : String) : String :=
  let baseData : List (String × Option String) :=
    [("FORMID", some serviceName),
     ("MOBILENUMBER", s.msisdn),
     ("SESSION", s.sessionId),
     ("BANKID", cfg.bankId),
     ("BANKNAME", cfg.bankName),
     ("SHORTCODE",
       match s.shortcode with
       | some sc => if sc ≠ "" then some sc else cfg.elmaShortcode
       | none => cfg.elmaShortcode),
     ("COUNTRY", cfg.country),
     ("TRXSOURCE", cfg.trxSource),
     ("DEVICEID", some deviceId),
     ("UNIQUEID", some requestId)]
  let withCust :=
    match s.customerData with
    | some cd =>
      match cd.customerid with
      | some cid => if cid ≠ "" then baseData ++ [("CUSTOMERID", some cid)] else baseData
      | none => baseData
    | none => baseData
  let withAccts :=
    match s.customerData with
    | some cd =>
      match cd.accounts with
      | some accs => withCust ++ [("BANKACCOUNTS", some (String.intercalate "," accs))]
      | none => withCust
    | none => withCust
  let additional := (parseDataString dataStr).map (fun kv => (kv.1, some kv.2))
  encodeOptKV (jsAssignG withAccts additional)

theorem length_dropWhile_le_self (p : Char → Bool) (l : List Char) :
    (l.dropWhile p).length ≤ l.length := by
  induction l with
  | nil => simp
  | cons x xs ih =>
    by_cases hx : p x <;> simp [List.dropWhile_cons, hx] <;> omega

theorem dropWhile_cons_shorter {cs rest' : List Char} {p : Char → Bool} {c : Char}
    (h : cs.dropWhile p = c :: rest') : rest'.length < cs.length := by
  have hlen := length_dropWhile_le_self p cs
  rw [h] at hlen
  simp only [List.length_cons] at hlen
  omega

/-- The scanning loop of `rawResponse.replace(/<[^>]+>/g, '')`: strip
tag-like `<...>` wrappers (each `<`, one or more non-`>` characters, `>`),
leftmost, non-overlapping.  Written with an explicit step budget (any budget
at least the list length gives the scan; each step consumes at least one
character) so that the definition reduces by evaluation. -/
def stripTagsFuel : Nat → List Char → List Char
  | 0, l => l
  | _ + 1, [] => []
  | fuel + 1, c :: cs =>
    if c = '<' then
      match cs.dropWhile (· ≠ '>') with
      | '>' :: rest' =>
        if cs.takeWhile (· ≠ '>') ≠ [] then stripTagsFuel fuel rest'
        else c :: stripTagsFuel fuel cs
      | _ => c :: stripTagsFuel fuel cs
    else c :: stripTagsFuel fuel cs

/-- `rawResponse.replace(/<[^>]+>/g, '')` on a character list. -/
def stripTagsAux (l : List Char) : List Char := stripTagsFuel l.length l

/-- JS `String.prototype.trim()`: drop leading and trailing whitespace
(ASCII whitespace; the exotic Unicode additions of the JS set never occur in
upstream response bodies). -/
def jsTrim (s : String) : String :=
  String.mk (((s.data.dropWhile Char.isWhitespace).reverse.dropWhile
    Char.isWhitespace).reverse)

/-- The derived key of the per-session response cache slot
`api_cache_{cacheKey}` for a session triple. -/
def cacheSlotKey (sess : UssdSession) (cacheKey : String) : String :=
  getSessionKey (sess.msisdn.getD "") (sess.sessionId.getD "")
    (sess.shortcode.getD "") ++ ":" ++ ("api_cache_" ++ cacheKey)

/-- `getFromCache`: read the slot; a hit requires a truthy `timestamp` and
an age under 5 minutes, and yields the stored envelope. -/
def getFromCache (st : RStore) (now : Nat) (sess : UssdSession) (cacheKey : String) :
    Option EnvelopeArr :=
  match rget st now (cacheSlotKey sess cacheKey) with
  | some (.cache e ts) => if ts ≠ 0 ∧ now - ts < 5 * 60 * 1000 then some e else none
  | _ => none

/-- `cacheResponse`: persist `{response, timestamp: Date.now()}` in the
slot (via `sessionService.store`, hence with the session TTL). -/
def cacheResponse (st : RStore) (now : Nat) (sess : UssdSession) (cacheKey : String)
    (resp : EnvelopeArr) : RStore :=
  rset st now (cacheSlotKey sess cacheKey) (.cache resp now) ttlSeconds

/-- The transport-error envelope returned by `call`'s `catch`. -/
def connErrorEnvelope : EnvelopeArr :=
  { success := false
    status := "ERROR"
    code := "API_CONNECTION_ERROR"
    data := []
    raw := ""
    message := none
    error := some "Service temporarily unavailable. Please try again."
    retry := some true }

/-- `call(serviceName, data, session, cacheKey, forceRefresh)` (first
revision): build the request string, serve from the cache slot when allowed,
otherwise issue the network request (the oracle `net` receives the base URL
and the data string that `call` assembles into
`` `${baseURL}?b=${encodeURIComponent(fullData)}` ``; `none` is a transport
error), strip tags / trim / parse, and cache the parsed envelope when it is
successful and a cache key is present.  Returns the envelope, the store, and
whether a network request was issued. -/
def apiCall (cfg : ApiConfig) (net : String → String → Option String)
    (st : RStore) (now : Nat) (serviceName dataStr : String) (sess : UssdSession)
    (requestId : String) (cacheKey : Option String) (forceRefresh : Bool) :
    EnvelopeArr × RStore × Bool :=
  let deviceId := sess.msisdn.getD "" ++ sess.shortcode.getD ""
  let fullData := buildDataString cfg serviceName dataStr sess requestId deviceId
  let cacheHit : Option EnvelopeArr :=
    match cacheKey with
    | some ck => if ck ≠ "" ∧ ¬forceRefresh then getFromCache st now sess ck else none
    | none => none
  match cacheHit with
  | some resp => (resp, st, false)
  | none =>
    match net cfg.baseURL fullData with
    | some body =>
      let rawResponse := jsTrim (String.mk (stripTagsAux body.data))
      let parsed := parseResponse rawResponse
      let st' :=
        match cacheKey with
        | some ck => if ck ≠ "" ∧ parsed.success then cacheResponse st now sess ck parsed else st
        | none => st
      (parsed, st', true)
    | none => (connErrorEnvelope, st, true)

theorem apiCall_store_unchanged_of_fail
    (cfg : ApiConfig) (net : String → String → Option String) (st : RStore) (now : Nat)
    (sn ds : String) (s : UssdSession) (rid : String) (ckey : Option String) (fr : Bool)
    (hfail : (apiCall cfg net st now sn ds s rid ckey fr).1.success = false) :
    (apiCall cfg net st now sn ds s rid ckey fr).2.1 = st := by
  cases ckey with
  | none =>
    cases hnet : net cfg.baseURL (buildDataString cfg sn ds s rid
        (s.msisdn.getD "" ++ s.shortcode.getD "")) with
    | none => simp [apiCall, hnet]
    | some body => simp [apiCall, hnet]
  | some ck =>
    by_cases hcv : ck ≠ "" ∧ ¬fr
    · cases hhit : getFromCache st now s ck with
      | some resp => simp [apiCall, hcv, hhit]
      | none =>
        cases hnet : net cfg.baseURL (buildDataString cfg sn ds s rid
            (s.msisdn.getD "" ++ s.shortcode.getD "")) with
        | none => simp [apiCall, hcv, hhit, hnet]
        | some body =>
          have hfail' : (parseResponse (jsTrim (String.mk (stripTagsAux body.data)))).success
              = false := by
            simpa [apiCall, hcv, hhit, hnet] using hfail
          simp [apiCall, hcv, hhit, hnet, hfail']
    · have hcv' : ¬(¬ck = "" ∧ fr = false) := by simpa using hcv
      cases hnet : net cfg.baseURL (buildDataString cfg sn ds s rid
          (s.msisdn.getD "" ++ s.shortcode.getD "")) with
      | none => simp [apiCall, hcv', hnet]
      | some body =>
        have hfail' : (parseResponse (jsTrim (String.mk (stripTagsAux body.data)))).success
            = false := by
          simpa [apiCall, hcv', hnet] using hfail
        simp [apiCall, hcv', hnet, hfail']
theorem C5_cache_only_success_and_reuse
    (cfg : ApiConfig) (net net2 netF : String → String → Option String)
    (st stF : RStore) (now1 now2 nowF : Nat)
    (serviceName dataStr snF dsF : String) (sess sF : UssdSession)
    (rid1 rid2 ridF : String) (ck : String) (ckF : Option String) (frF : Bool)
    (hfail : (apiCall cfg netF stF nowF snF dsF sF ridF ckF frF).1.success = false)
    (hck : ck ≠ "") (hts : 0 < now1) (hord : now1 ≤ now2)
    (hwin : now2 - now1 < 5 * 60 * 1000)
    (hmiss : objLookup (cacheSlotKey sess ck) st = none)
    (hsucc : (apiCall cfg net st now1 serviceName dataStr sess rid1
      (some ck) false).1.success = true) :
    (apiCall cfg netF stF nowF snF dsF sF ridF ckF frF).2.1 = stF ∧
    apiCall cfg net2
        (apiCall cfg net st now1 serviceName dataStr sess rid1 (some ck) false).2.1
        now2 serviceName dataStr sess rid2 (some ck) false =
      ((apiCall cfg net st now1 serviceName dataStr sess rid1 (some ck) false).1,
       (apiCall cfg net st now1 serviceName dataStr sess rid1 (some ck) false).2.1,
       false) := by
  refine ⟨apiCall_store_unchanged_of_fail _ _ _ _ _ _ _ _ _ _ hfail, ?_⟩
  have hmiss' : getFromCache st now1 sess ck = none := by
    simp [getFromCache, rget, hmiss]
  cases hnet : net cfg.baseURL (buildDataString cfg serviceName dataStr sess rid1
      (sess.msisdn.getD "" ++ sess.shortcode.getD "")) with
  | none =>
    exfalso
    have hred : (apiCall cfg net st now1 serviceName dataStr sess rid1
        (some ck) false).1 = connErrorEnvelope := by
      simp [apiCall, hmiss', hnet, hck]
    rw [hred] at hsucc
    simp [connErrorEnvelope] at hsucc
  | some body =>
    have hp : (parseResponse (jsTrim (String.mk (stripTagsAux body.data)))).success = true := by
      have hred : (apiCall cfg net st now1 serviceName dataStr sess rid1
          (some ck) false).1 =
          parseResponse (jsTrim (String.mk (stripTagsAux body.data))) := by
        simp [apiCall, hmiss', hnet, hck]
      rwa [hred] at hsucc
    have hfirst : apiCall cfg net st now1 serviceName dataStr sess rid1 (some ck) false =
        (parseResponse (jsTrim (String.mk (stripTagsAux body.data))),
         cacheResponse st now1 sess ck
           (parseResponse (jsTrim (String.mk (stripTagsAux body.data)))),
         true) := by
      simp [apiCall, hmiss', hnet, hck, hp]
    rw [hfirst]
    have hhit2 : getFromCache (cacheResponse st now1 sess ck
        (parseResponse (jsTrim (String.mk (stripTagsAux body.data))))) now2 sess ck =
        some (parseResponse (jsTrim (String.mk (stripTagsAux body.data)))) := by
      have hlive : now2 < now1 + ttlSeconds * 1000 := by
        simp only [ttlSeconds]
        omega
      simp only [getFromCache, cacheResponse, rget, rset, objLookup_objInsert_self,
        if_pos hlive]
      rw [if_pos ⟨by omega, by omega⟩]
    simp [apiCall, hhit2, hck]
def c5Sess : UssdSession := ⟨some "254700111222", some "S9", some "527", none⟩

def c5NetOk : String → String → Option String := fun _ _ => some "STATUS:000:DATA:ok:"

def c5NetBad : String → String → Option String := fun _ _ => some "STATUS:091:DATA:bad:"

/-- Witness for C5: a failing call (status 091) writes nothing; a successful
`GETCUSTOMER`-style call caches, and a second call 199 s later is served
from the slot with no network request. -/
theorem C5_cache_only_success_and_reuse_witness :
    ((apiCall ⟨"http://api", none, none, none, none, none⟩ c5NetBad [] 500 "F" "" c5Sess
        "r0" none false).1.success = false ∧
      ("customer_254700111222" : String) ≠ "" ∧
      (0 : Nat) < 1000 ∧ (1000 : Nat) ≤ 200000 ∧
      (200000 : Nat) - 1000 < 5 * 60 * 1000 ∧
      objLookup (cacheSlotKey c5Sess "customer_254700111222") ([] : RStore) = none ∧
      (apiCall ⟨"http://api", none, none, none, none, none⟩ c5NetOk [] 1000 "GETCUSTOMER"
        "" c5Sess "r1" (some "customer_254700111222") false).1.success = true) ∧
    ((apiCall ⟨"http://api", none, none, none, none, none⟩ c5NetBad [] 500 "F" "" c5Sess
        "r0" none false).2.1 = ([] : RStore) ∧
      apiCall ⟨"http://api", none, none, none, none, none⟩ c5NetBad
          (apiCall ⟨"http://api", none, none, none, none, none⟩ c5NetOk [] 1000
            "GETCUSTOMER" "" c5Sess "r1" (some "customer_254700111222") false).2.1
          200000 "GETCUSTOMER" "" c5Sess "r2" (some "customer_254700111222") false =
        ((apiCall ⟨"http://api", none, none, none, none, none⟩ c5NetOk [] 1000
            "GETCUSTOMER" "" c5Sess "r1" (some "customer_254700111222") false).1,
         (apiCall ⟨"http://api", none, none, none, none, none⟩ c5NetOk [] 1000
            "GETCUSTOMER" "" c5Sess "r1" (some "customer_254700111222") false).2.1,
         false)) :=
  ⟨⟨by decide, by decide, by decide, by decide, by decide, rfl, by decide⟩,
    C5_cache_only_success_and_reuse
      ⟨"http://api", none, none, none, none, none⟩ c5NetOk c5NetBad c5NetBad
      [] [] 1000 200000 500 "GETCUSTOMER" "" "F" "" c5Sess c5Sess
      "r1" "r2" "r0" "customer_254700111222" none false
      (by decide) (by decide) (by decide) (by decide) (by decide) rfl (by decide)⟩

/-! ## C2: PIN module (`src/modules/pin.module.js`, `processPinOrForgot`)

The login envelope is the module's upstream oracle (the claim quantifies
over responses for which the login succeeds); its keyed `data` carries the
`ACCOUNTS` field the module reads.  Session effects are recorded as an
operation trace (`session.store` / `apiService.login` /
`session.updateSession`, in call order). -/

/-- The normalised result object an action handler returns to the menu
engine (absent JS properties are `none`). -/
structure HandlerResult where
  action : Option String := none
  message : Option String := none
  nextMenu : Option String := none
  retryMenu : Option String := none
  error : Option Bool := none
  errorMessage : Option String := none
  deriving Repr, DecidableEq

/-- One session-affecting call made by the PIN module, in call order. -/
inductive PinOp where
  | storeSlot (slot : String) (value : JsonVal)
  | login (pin : String)
  | updateSession (patch : List (String × JsonVal))
  deriving Repr

/-- The slice of the enhanced session object the PIN module touches. -/
structure PinSession where
  msisdn : Option String
  sessionId : Option String
  shortcode : Option String
  customerData : Option (List (String × JsonVal))
  deriving Repr

/-- `pin.processPinOrForgot(inputValue, session, context)` (first-revision
`pin.module.js`, lines 5–114), with the login envelope supplied as an
oracle.  Returns the handler result, the trace of session/API operations,
and the locally updated session object. -/
def processPinOrForgot (inputValue : Option String)
    (sess : PinSession) (loginResult : EnvelopeMap) :
    Option HandlerResult × List PinOp × PinSession :=
  match inputValue with
  | none => (none, [], sess)
  | some inp =>
    if inp = "" then (none, [], sess)
    else if inp = "1" then
      (some { nextMenu := some "forgot_pin_info" }, [], sess)
    else if inp.data.length < 4 ∨ inp.data.length > 6 ∨ ¬(inp.data.all Char.isDigit) then
      (some { action := some "con",
              message := some "PIN must be 4-6 digits\n\nEnter PIN:",
              retryMenu := some "home" }, [], sess)
    else
      let ops0 := [PinOp.storeSlot "pin_attempt" (.str inp), PinOp.login inp]
      if loginResult.success then
        let acc :=
          match objLookup "ACCOUNTS" loginResult.data with
          | some a =>
            if a ≠ "" then
              let accounts := ((splitOnChar ',' a.data).map String.mk).filter
                (fun x => jsTrim x ≠ "")
              let updatedCD := objInsert "accounts" (JsonVal.arr (accounts.map JsonVal.str))
                (sess.customerData.getD [])
              ([PinOp.updateSession [("customerData", .obj updatedCD)]],
               { sess with customerData := some updatedCD })
            else (([] : List PinOp), sess)
          | none => (([] : List PinOp), sess)
        (some { nextMenu := some "main_menu" },
         ops0 ++ acc.1 ++
           [PinOp.storeSlot "loginData"
              (.obj (loginResult.data.map (fun kv => (kv.1, JsonVal.str kv.2)))),
            PinOp.storeSlot "authStatus" (.str "authenticated"),
            PinOp.updateSession [("authStatus", .str "authenticated")]],
         acc.2)
      else
        let errorCode :=
          match loginResult.status with
          | some s => if s ≠ "" then s else loginResult.code
          | none => loginResult.code
        if errorCode = "101" then
          (some { action := some "con",
                  message := some "Your PIN has expired. Please enter a new PIN:",
                  nextMenu := some "change_pin_forced" }, ops0, sess)
        else if errorCode = "102" then
          (some { action := some "end",
                  message := some "Your account has been blocked. Please visit a branch." },
           ops0, sess)
        else
          let errorMessage :=
            if errorCode = "091" then "Invalid Login Password"
            else
              match loginResult.error with
              | some e => if e ≠ "" then e else "Invalid PIN. Please try again."
              | none => "Invalid PIN. Please try again."
          (some { action := some "con",
                  message := some (errorMessage ++ "\n\nEnter PIN:"),
                  retryMenu := some "home" }, ops0, sess)

/-- C2: for every 4–6 digit PIN input (not the forgot-PIN literal `"1"`)
whose login envelope is successful with a non-empty `ACCOUNTS` field, the
module's trace is exactly: store slot `pin_attempt` with the PIN, one
`login` call, update `customerData` with `ACCOUNTS` split on commas
(entries blank after trimming dropped), store `loginData`, store and update
`authStatus = authenticated`; and the result is `nextMenu = "main_menu"`.
In particular the trace contains exactly one login call, preceded by the
`pin_attempt` store. -/
theorem C2_pin_success_flow (inp : String) (sess : PinSession)
    (loginResult : EnvelopeMap) (accStr : String)
    (hne : inp ≠ "") (hnot1 : inp ≠ "1")
    (hlen4 : 4 ≤ inp.data.length) (hlen6 : inp.data.length ≤ 6)
    (hdig : inp.data.all Char.isDigit)
    (hsucc : loginResult.success = true)
    (hacc : objLookup "ACCOUNTS" loginResult.data = some accStr)
    (haccne : accStr ≠ "") :
    processPinOrForgot (some inp) sess loginResult =
      (some { nextMenu := some "main_menu" },
       [PinOp.storeSlot "pin_attempt" (.str inp), PinOp.login inp,
        PinOp.updateSession [("customerData", .obj (objInsert "accounts"
          (JsonVal.arr ((((splitOnChar ',' accStr.data).map String.mk).filter
            (fun x => jsTrim x ≠ "")).map JsonVal.str))
          (sess.customerData.getD [])))],
        PinOp.storeSlot "loginData"
          (.obj (loginResult.data.map (fun kv => (kv.1, JsonVal.str kv.2)))),
        PinOp.storeSlot "authStatus" (.str "authenticated"),
        PinOp.updateSession [("authStatus", .str "authenticated")]],
       { sess with customerData := some (objInsert "accounts"
          (JsonVal.arr ((((splitOnChar ',' accStr.data).map String.mk).filter
            (fun x => jsTrim x ≠ "")).map JsonVal.str))
          (sess.customerData.getD [])) }) ∧
    (processPinOrForgot (some inp) sess loginResult).2.1.countP
      (fun o => match o with | .login _ => true | _ => false) = 1 := by
  have hshape : ¬(inp.data.length < 4 ∨ inp.data.length > 6 ∨
      ¬(inp.data.all Char.isDigit = true)) := by
    push_neg
    exact ⟨by omega, by omega, by simpa using hdig⟩
  have hred : processPinOrForgot (some inp) sess loginResult =
      (some { nextMenu := some "main_menu" },
       [PinOp.storeSlot "pin_attempt" (.str inp), PinOp.login inp,
        PinOp.updateSession [("customerData", .obj (objInsert "accounts"
          (JsonVal.arr ((((splitOnChar ',' accStr.data).map String.mk).filter
            (fun x => jsTrim x ≠ "")).map JsonVal.str))
          (sess.customerData.getD [])))],
        PinOp.storeSlot "loginData"
          (.obj (loginResult.data.map (fun kv => (kv.1, JsonVal.str kv.2)))),
        PinOp.storeSlot "authStatus" (.str "authenticated"),
        PinOp.updateSession [("authStatus", .str "authenticated")]],
       { sess with customerData := some (objInsert "accounts"
          (JsonVal.arr ((((splitOnChar ',' accStr.data).map String.mk).filter
            (fun x => jsTrim x ≠ "")).map JsonVal.str))
          (sess.customerData.getD [])) }) := by
    simp only [processPinOrForgot, if_neg (by simpa using hne), if_neg hnot1,
      if_neg hshape, hsucc, hacc]
    rw [if_pos trivial, if_pos haccne]
    rfl
  refine ⟨hred, ?_⟩
  rw [hred]
  simp [List.countP_cons, List.countP_append]

def c2Login : EnvelopeMap :=
  parseResponseMap "STATUS:000:ACCOUNTS:0102030405-Main,0102030406-Savings:"

def c2Sess : PinSession :=
  ⟨some "254700111222", some "S1", some "527",
   some [("customerid", JsonVal.str "C1")]⟩

/-- Witness for C2 at the spec's scenario 3: PIN `"1234"` against the login
response `STATUS:000:ACCOUNTS:0102030405-Main,0102030406-Savings:`. -/
theorem C2_pin_success_flow_witness :
    (("1234" : String) ≠ "" ∧ ("1234" : String) ≠ "1" ∧
      4 ≤ "1234".data.length ∧ "1234".data.length ≤ 6 ∧
      "1234".data.all Char.isDigit ∧
      c2Login.success = true ∧
      objLookup "ACCOUNTS" c2Login.data =
        some "0102030405-Main,0102030406-Savings" ∧
      ("0102030405-Main,0102030406-Savings" : String) ≠ "") ∧
    (processPinOrForgot (some "1234") c2Sess c2Login =
      (some { nextMenu := some "main_menu" },
       [PinOp.storeSlot "pin_attempt" (.str "1234"), PinOp.login "1234",
        PinOp.updateSession [("customerData", .obj (objInsert "accounts"
          (JsonVal.arr ((((splitOnChar ',' ("0102030405-Main,0102030406-Savings" : String).data).map
              String.mk).filter (fun x => jsTrim x ≠ "")).map JsonVal.str))
          (c2Sess.customerData.getD [])))],
        PinOp.storeSlot "loginData"
          (.obj (c2Login.data.map (fun kv => (kv.1, JsonVal.str kv.2)))),
        PinOp.storeSlot "authStatus" (.str "authenticated"),
        PinOp.updateSession [("authStatus", .str "authenticated")]],
       { c2Sess with customerData := some (objInsert "accounts"
          (JsonVal.arr ((((splitOnChar ',' ("0102030405-Main,0102030406-Savings" : String).data).map
              String.mk).filter (fun x => jsTrim x ≠ "")).map JsonVal.str))
          (c2Sess.customerData.getD [])) }) ∧
    (processPinOrForgot (some "1234") c2Sess c2Login).2.1.countP
      (fun o => match o with | .login _ => true | _ => false) = 1) :=
  ⟨⟨by decide, by decide, by decide, by decide, by decide, by decide, rfl, by decide⟩,
    C2_pin_success_flow "1234" c2Sess c2Login "0102030405-Main,0102030406-Savings"
      (by decide) (by decide) (by decide) (by decide) (by decide) (by decide)
      rfl (by decide)⟩

/-! ## Menu engine (`src/services/menu.service.js`)

Contexts are JSON-like values; `_.get(context, field)` is the lodash dotted
path lookup (object property per segment, numeric index into arrays);
JS `undefined` is `none`. -/

def digitsToNat (l : List Char) : Nat :=
  l.foldl (fun acc c => acc * 10 + (c.toNat - '0'.toNat)) 0

def lodashGetPath : JsonVal → List String → Option JsonVal
  | v, [] => some v
  | v, seg :: rest =>
    match v with
    | .obj fields =>
      match objLookup seg fields with
      | some v' => lodashGetPath v' rest
      | none => none
    | .arr xs =>
      if seg ≠ "" ∧ seg.data.all Char.isDigit then
        match xs.get? (digitsToNat seg.data) with
        | some v' => lodashGetPath v' rest
        | none => none
      else none
    | _ => none

/-- `_.get(context, field)` for a dotted path. -/
def lodashGet (ctx : JsonVal) (field : String) : Option JsonVal :=
  lodashGetPath ctx ((splitOnChar '.' field.data).map String.mk)

mutual

/-- `String(value)` for the value shapes occurring here (`Array.prototype.
toString` joins with commas, rendering `null` elements as empty). -/
def jsToString : JsonVal → String
  | .null => "null"
  | .bool b => if b then "true" else "false"
  | .num n => toString n
  | .str s => s
  | .arr xs => String.intercalate "," (jsToStringElems xs)
  | .obj _ => "[object Object]"

def jsToStringElems : List JsonVal → List String
  | [] => []
  | .null :: rest => "" :: jsToStringElems rest
  | x :: rest => jsToString x :: jsToStringElems rest

end

/-- `ToNumber` on the primitive shapes (a non-numeric result — JS `NaN` —
is `none`; numeric condition values in the menu configs are integers). -/
def jsToNumber : JsonVal → Option Int
  | .null => some 0
  | .bool b => some (if b then 1 else 0)
  | .num n => some n
  | .str s =>
    let t := jsTrim s
    if t = "" then some 0
    else if t.data.all Char.isDigit then some (digitsToNat t.data)
    else match t.data with
      | '-' :: rest => if rest ≠ [] ∧ rest.all Char.isDigit then some (-(digitsToNat rest : Int)) else none
      | _ => none
  | .arr _ => none
  | .obj _ => none

/-- JS loose equality `==` on the shapes compared by `evaluateCondition`
(a context value against a configuration literal): primitives compare after
the standard coercions; object/array operands compare by reference in JS
and a configuration literal is never the same reference as a context value,
hence `false`.  A missing (`undefined`) right operand equals only
`null`/`undefined`. -/
def jsLooseEq (a : JsonVal) (b : Option JsonVal) : Bool :=
  match a, b with
  | .null, none => true
  | _, none => false
  | .null, some .null => true
  | .str x, some (.str y) => x = y
  | .num x, some (.num y) => x = y
  | .bool x, some (.bool y) => x = y
  | .num _, some (.str _) | .str _, some (.num _)
  | .bool _, some _ | _, some (.bool _) =>
    match jsToNumber a, b.bind jsToNumber with
    | some x, some y => x = y
    | _, _ => false
  | _, _ => false

def strStartsWith : List Char → List Char → Bool
  | [], _ => true
  | _ :: _, [] => false
  | a :: as, b :: bs => a = b && strStartsWith as bs

/-- `String.prototype.includes`. -/
def strIncludes (needle : List Char) : List Char → Bool
  | [] => needle.isEmpty
  | b :: bs => strStartsWith needle (b :: bs) || strIncludes needle bs

/-- `Array.prototype.includes` (SameValueZero: primitives by value, objects
by reference — a config-literal element is never the context value's
reference). -/
def jsArrIncludes (arrVal : Option JsonVal) (x : JsonVal) : Bool :=
  match arrVal with
  | some (.arr xs) => xs.any (fun e =>
      match e, x with
      | .null, .null => true
      | .str a, .str b => a = b
      | .num a, .num b => a = b
      | .bool a, .bool b => a = b
      | _, _ => false)
  | _ => false

/-- A menu option/branch guard `{field, operator, value}` (the `value`
property may be absent in the configuration). -/
structure MenuCondition where
  field : String
  operator : String
  value : Option JsonVal := none
  deriving Repr

/-- `evaluateCondition(condition, context)` (`menu.service.js` lines
381–402): a falsy condition passes; an `undefined`/`null` field value
satisfies only `not_exists`; otherwise the eight documented operators are
dispatched and — per the `default` arm of the `switch` — any other
operator string returns `true`. -/
def evaluateCondition (cond : Option MenuCondition) (ctx : JsonVal) : Bool :=
  match cond with
  | none => true
  | some c =>
    match lodashGet ctx c.field with
    | none => c.operator = "not_exists"
    | some .null => c.operator = "not_exists"
    | some fv =>
      if c.operator = "equals" then jsLooseEq fv c.value
      else if c.operator = "not_equals" then !(jsLooseEq fv c.value)
      else if c.operator = "greater_than" then
        match jsToNumber fv, c.value.bind jsToNumber with
        | some x, some y => decide (x > y)
        | _, _ => false
      else if c.operator = "less_than" then
        match jsToNumber fv, c.value.bind jsToNumber with
        | some x, some y => decide (x < y)
        | _, _ => false
      else if c.operator = "exists" then true
      else if c.operator = "not_exists" then false
      else if c.operator = "contains" then
        strIncludes (jsToString (c.value.getD .null)).data (jsToString fv).data
      else if c.operator = "in" then jsArrIncludes c.value fv
      else true

/-- C10: whenever the condition's field resolves to a defined, non-null
value and the operator is none of the eight documented ones, the `default`
arm of `evaluateCondition` returns `true`, so the guarded option or branch
is allowed. -/
theorem C10_unknown_operator_allows (ctx : JsonVal) (field op : String)
    (value : Option JsonVal) (v : JsonVal)
    (hget : lodashGet ctx field = some v) (hnn : v ≠ JsonVal.null)
    (hop : op ∉ ["equals", "not_equals", "greater_than", "less_than",
      "exists", "not_exists", "contains", "in"]) :
    evaluateCondition (some ⟨field, op, value⟩) ctx = true := by
  simp only [List.mem_cons, List.mem_singleton, not_or] at hop
  obtain ⟨h1, h2, h3, h4, h5, h6, h7, h8⟩ := hop
  cases v with
  | null => exact absurd rfl hnn
  | bool b => simp [evaluateCondition, hget, h1, h2, h3, h4, h5, h6, h7, h8]
  | num n => simp [evaluateCondition, hget, h1, h2, h3, h4, h5, h6, h7, h8]
  | str s => simp [evaluateCondition, hget, h1, h2, h3, h4, h5, h6, h7, h8]
  | arr xs => simp [evaluateCondition, hget, h1, h2, h3, h4, h5, h6, h7, h8]
  | obj fields => simp [evaluateCondition, hget, h1, h2, h3, h4, h5, h6, h7, h8]

/-- Witness for C10: operator `"matches"` against a resolved
`customer.language`. -/
theorem C10_unknown_operator_allows_witness :
    (lodashGet (JsonVal.obj [("customer", JsonVal.obj [("language", JsonVal.str "EN")])])
        "customer.language" = some (JsonVal.str "EN") ∧
      JsonVal.str "EN" ≠ JsonVal.null ∧
      ("matches" : String) ∉ ["equals", "not_equals", "greater_than", "less_than",
        "exists", "not_exists", "contains", "in"]) ∧
    evaluateCondition (some ⟨"customer.language", "matches", some (JsonVal.str "EN")⟩)
      (JsonVal.obj [("customer", JsonVal.obj [("language", JsonVal.str "EN")])]) = true :=
  ⟨⟨rfl, by simp, by decide⟩,
    C10_unknown_operator_allows _ "customer.language" "matches"
      (some (JsonVal.str "EN")) (JsonVal.str "EN") rfl (by simp) (by decide)⟩

/-! ## C9: `renderMenu` and the one-shot `handlerExecuted` flag -/

/-- JS `\w`: `[A-Za-z0-9_]`. -/
def isWordChar (c : Char) : Bool :=
  c.isAlpha || c.isDigit || c = '_'

/-- Parse the dotted-path content of a `/\{(\w+(?:\.\w+)*)\}/` match:
given the characters after `{`, return the key characters and the rest
after `}` (none when the brace does not enclose such a path). -/
def parseTmplSegs : Nat → List Char → List Char → Option (List Char × List Char)
  | _, acc, '}' :: rest => some (acc, rest)
  | fuel + 1, acc, '.' :: rest =>
    let seg := rest.takeWhile isWordChar
    if seg ≠ [] then parseTmplSegs fuel (acc ++ '.' :: seg) (rest.dropWhile isWordChar)
    else none
  | _, _, _ => none

def parseTmplKey (l : List Char) : Option (List Char × List Char) :=
  let seg1 := l.takeWhile isWordChar
  if seg1 ≠ [] then parseTmplSegs l.length seg1 (l.dropWhile isWordChar)
  else none

/-- The scanning loop of `text.replace(/\{(\w+(?:\.\w+)*)\}/g, ...)`
(`replaceTemplateVariables`, lines 404–411): each placeholder is replaced
with `_.get(context, key, match)` rendered by `String(...)` when non-null
and by the empty string when `null` (the lodash default — the match text
itself — applies when the path is undefined). -/
def tmplReplaceFuel : Nat → JsonVal → List Char → List Char
  | 0, _, l => l
  | _ + 1, _, [] => []
  | fuel + 1, ctx, c :: cs =>
    if c = '{' then
      match parseTmplKey cs with
      | some (key, rest) =>
        (match lodashGet ctx (String.mk key) with
         | none => '{' :: key ++ ['}']
         | some .null => []
         | some v => (jsToString v).data) ++ tmplReplaceFuel fuel ctx rest
      | none => c :: tmplReplaceFuel fuel ctx cs
    else c :: tmplReplaceFuel fuel ctx cs

/-- `replaceTemplateVariables(text, context)` (a falsy `text` yields `''`). -/
def replaceTemplateVariables (text : String) (ctx : JsonVal) : String :=
  if text = "" then ""
  else String.mk (tmplReplaceFuel text.data.length ctx text.data)

/-- The `/\n\d\.\s/` test of `renderMenu`: does the message already carry a
numbered option line? -/
def hasNumberedOptions : List Char → Bool
  | [] => false
  | c :: cs =>
    (c = '\n' && (match cs with
      | d :: '.' :: w :: _ => d.isDigit && w.isWhitespace
      | _ => false)) || hasNumberedOptions cs

/-- A menu option as consumed by `renderMenu` (the `store`/`action`/
`handler`/`nextMenu` members are read only by `processMenuResponse`). -/
structure MenuOption where
  text : String := ""
  condition : Option MenuCondition := none
  handler : Option String := none
  nextMenu : Option String := none
  deriving Repr

/-- A parsed menu-node configuration as held in the `menus` map.  A menu
JSON file carries no `handlerExecuted` member, so the flag parses as absent
(falsy), i.e. `false`. -/
structure MenuConfig where
  handler : Option String := none
  handlerExecuted : Bool := false
  message : String := ""
  action : Option String := none
  options : List MenuOption := []
  navigationText : Option String := none
  deriving Repr

/-- The result frame of `renderMenu` (the `metadata` passthrough member is
omitted: nothing reads it). -/
structure Frame where
  name : String
  action : String
  message : String
  nextMenu : Option String := none
  deriving Repr

/-- The normalisation `executeHandlerByName` applies to a handler's result
(`action: result.action || 'con'`, `message: result.message || ''`); a
throwing or unknown handler yields `null` (`none`). -/
structure NormalizedResult where
  action : String
  message : String
  nextMenu : Option String
  error : Option Bool
  errorMessage : Option String
  retryMenu : Option String
  deriving Repr

def executeHandlerByName (handlers : String → Option HandlerResult)
    (name : String) : Option NormalizedResult :=
  match handlers name with
  | some r =>
    some { action := match r.action with
             | some a => if a ≠ "" then a else "con"
             | none => "con"
           message := r.message.getD ""
           nextMenu := r.nextMenu
           error := r.error
           errorMessage := r.errorMessage
           retryMenu := r.retryMenu }
  | none => none

/-- The option-appending `forEach` of `renderMenu`: options whose condition
fails are skipped, numbering follows the configuration index. -/
def optionLines (ctx : JsonVal) : List MenuOption → Nat → String
  | [], _ => ""
  | o :: rest, idx =>
    (if evaluateCondition o.condition ctx then
      "\n" ++ toString (idx + 1) ++ ". " ++ replaceTemplateVariables o.text ctx
     else "") ++ optionLines ctx rest (idx + 1)

/-- The template part of `renderMenu`: substitute placeholders, append
numbered options (unless the message already has them), append the
navigation hint (unless already contained), trim. -/
def renderMenuBody (cfg : MenuConfig) (menuName : String) (ctx : JsonVal) : Frame :=
  let message := replaceTemplateVariables cfg.message ctx
  let message :=
    if ¬cfg.options.isEmpty ∧ ¬hasNumberedOptions message.data then
      message ++ optionLines ctx cfg.options 0
    else message
  let message :=
    match cfg.navigationText with
    | some navTxt =>
      let navText := replaceTemplateVariables navTxt ctx
      if navText ≠ "" ∧ ¬strIncludes (jsTrim navText).data message.data then
        message ++ "\n" ++ navText
      else message
    | none => message
  { name := menuName
    action := match cfg.action with
      | some a => if a ≠ "" then a else "con"
      | none => "con"
    message := jsTrim message }

/-- `renderMenu(menuName, context)` (`menu.service.js` lines 413–494) as a
transition on the shared `menus` map: returns the frame, the updated map,
and whether the node's declared handler was invoked.  When the node has a
handler and `handlerExecuted` is not yet set, the handler runs with a
`null` input; a result carrying a message is returned directly (the flag
stays clear), otherwise `handlerExecuted` is set on the shared
configuration object and rendering falls through to the template. -/
def renderMenu (menus : List (String × MenuConfig))
    (handlers : String → Option HandlerResult) (menuName : String) (ctx : JsonVal) :
    Frame × List (String × MenuConfig) × Bool :=
  if menuName = "end" then
    ({ name := "end", action := "end",
       message := "Thank you for using SidianVIBE. Goodbye!" }, menus, false)
  else
    match objLookup menuName menus with
    | none =>
      ({ name := menuName, action := "con", message := "Menu not available." },
       menus, false)
    | some cfg =>
      match cfg.handler with
      | some h =>
        if cfg.handlerExecuted then (renderMenuBody cfg menuName ctx, menus, false)
        else
          match executeHandlerByName handlers h with
          | some r =>
            if r.message ≠ "" then
              ({ name := menuName
                 action := if r.action ≠ "" then r.action
                   else match cfg.action with
                     | some a => if a ≠ "" then a else "con"
                     | none => "con"
                 message := r.message
                 nextMenu := r.nextMenu },
               menus, true)
            else
              (renderMenuBody { cfg with handlerExecuted := true } menuName ctx,
               objInsert menuName { cfg with handlerExecuted := true } menus, true)
          | none =>
            (renderMenuBody { cfg with handlerExecuted := true } menuName ctx,
             objInsert menuName { cfg with handlerExecuted := true } menus, true)
      | none => (renderMenuBody cfg menuName ctx, menus, false)

/-- `true` when the named shared configuration object carries a set
`handlerExecuted` flag. -/
def flagIsSet (menus : List (String × MenuConfig)) (m : String) : Bool :=
  match objLookup m menus with
  | some c => c.handlerExecuted
  | none => false

theorem renderMenu_preserves_flag (menus : List (String × MenuConfig))
    (handlers : String → Option HandlerResult) (name : String) (ctx : JsonVal)
    (m : String) (hflag : flagIsSet menus m = true) :
    flagIsSet (renderMenu menus handlers name ctx).2.1 m = true := by
  by_cases hend : name = "end"
  · simpa [renderMenu, hend] using hflag
  · simp only [renderMenu, if_neg hend]
    cases hlook : objLookup name menus with
    | none => simpa using hflag
    | some cfg =>
      cases hh : cfg.handler with
      | none =>
        simp only [hh]
        simpa using hflag
      | some h3 =>
        simp only [hh]
        by_cases hex : cfg.handlerExecuted
        · simpa [hex] using hflag
        · simp only [hex, Bool.false_eq_true, if_false]
          cases hr : executeHandlerByName handlers h3 with
          | some r =>
            simp only [hr]
            by_cases hm : r.message = ""
            · by_cases hmn : m = name
              · subst hmn
                simp [hm, flagIsSet, objLookup_objInsert_self]
              · simp only [hm]
                simpa [flagIsSet, objLookup_objInsert_ne hmn] using hflag
            · simpa [hm] using hflag
          | none =>
            simp only [hr]
            by_cases hmn : m = name
            · subst hmn
              simp [flagIsSet, objLookup_objInsert_self]
            · simpa [flagIsSet, objLookup_objInsert_ne hmn] using hflag
/-- C9: once `renderMenu` renders a node whose declared handler returned no
message, the `handlerExecuted` flag is set on the shared configuration
object in the `menus` map; a later render of that menu — with any handlers
and context, hence in any later turn or session — does not invoke the
handler again and leaves the map unchanged; and no render of any menu on any
map ever clears a set flag (only `loadConfigurations`' wholesale rebuild of
the map discards it). -/
theorem C9_handler_flag_one_shot
    (menus menus2 : List (String × MenuConfig))
    (handlers handlers2 handlers3 : String → Option HandlerResult)
    (name name3 m : String) (ctx ctx2 ctx3 : JsonVal) (cfg : MenuConfig) (h : String)
    (hlook : objLookup name menus = some cfg)
    (hnotend : name ≠ "end")
    (hhandler : cfg.handler = some h)
    (hnotyet : cfg.handlerExecuted = false)
    (hnomsg : (executeHandlerByName handlers h).all (fun r => r.message == "") = true)
    (hflag2 : flagIsSet menus2 m = true) :
    (renderMenu menus handlers name ctx).2.2 = true ∧
    (renderMenu menus handlers name ctx).2.1 =
      objInsert name { cfg with handlerExecuted := true } menus ∧
    flagIsSet (renderMenu menus handlers name ctx).2.1 name = true ∧
    (renderMenu ((renderMenu menus handlers name ctx).2.1) handlers2 name ctx2).2.2
      = false ∧
    (renderMenu ((renderMenu menus handlers name ctx).2.1) handlers2 name ctx2).2.1
      = (renderMenu menus handlers name ctx).2.1 ∧
    flagIsSet (renderMenu menus2 handlers3 name3 ctx3).2.1 m = true := by
  have hstate : (renderMenu menus handlers name ctx).2.1 =
      objInsert name { cfg with handlerExecuted := true } menus ∧
      (renderMenu menus handlers name ctx).2.2 = true := by
    simp only [renderMenu, if_neg hnotend, hlook, hhandler, hnotyet,
      Bool.false_eq_true, if_false]
    cases hr : executeHandlerByName handlers h with
    | none => simp
    | some r =>
      have hm : r.message = "" := by simpa [hr] using hnomsg
      simp [hm]
  have hsecond : (renderMenu ((renderMenu menus handlers name ctx).2.1)
      handlers2 name ctx2) =
      (renderMenuBody { cfg with handlerExecuted := true } name ctx2,
       (renderMenu menus handlers name ctx).2.1, false) := by
    rw [hstate.1]
    simp only [renderMenu, if_neg hnotend, objLookup_objInsert_self]
    simp [hhandler]
  refine ⟨hstate.2, hstate.1, ?_, ?_, ?_,
    renderMenu_preserves_flag menus2 handlers3 name3 ctx3 m hflag2⟩
  · rw [hstate.1]
    simp [flagIsSet, objLookup_objInsert_self]
  · rw [hsecond]
  · rw [hsecond]

def c9Menus : List (String × MenuConfig) :=
  [("balance", { handler := some "balance.processBalanceRequest",
                 message := "Select Account:" })]

def c9Cfg : MenuConfig :=
  { handler := some "balance.processBalanceRequest", message := "Select Account:" }

def c9Handlers : String → Option HandlerResult :=
  fun n => if n = "balance.processBalanceRequest" then some { action := some "con" }
           else none

def c9Menus2 : List (String × MenuConfig) :=
  [("home", { handler := some "pin.processPinOrForgot", handlerExecuted := true })]

/-- Witness for C9: the `balance` node's handler returns a message-less
result on first render; the flag is set, the re-render skips the handler,
and an already-set flag on `home` survives another render. -/
theorem C9_handler_flag_one_shot_witness :
    (objLookup "balance" c9Menus = some c9Cfg ∧
      ("balance" : String) ≠ "end" ∧
      c9Cfg.handler = some "balance.processBalanceRequest" ∧
      c9Cfg.handlerExecuted = false ∧
      (executeHandlerByName c9Handlers "balance.processBalanceRequest").all
        (fun r => r.message == "") = true ∧
      flagIsSet c9Menus2 "home" = true) ∧
    ((renderMenu c9Menus c9Handlers "balance" (JsonVal.obj [])).2.2 = true ∧
      (renderMenu c9Menus c9Handlers "balance" (JsonVal.obj [])).2.1 =
        objInsert "balance" { c9Cfg with handlerExecuted := true } c9Menus ∧
      flagIsSet (renderMenu c9Menus c9Handlers "balance" (JsonVal.obj [])).2.1
        "balance" = true ∧
      (renderMenu ((renderMenu c9Menus c9Handlers "balance" (JsonVal.obj [])).2.1)
        c9Handlers "balance" (JsonVal.obj [])).2.2 = false ∧
      (renderMenu ((renderMenu c9Menus c9Handlers "balance" (JsonVal.obj [])).2.1)
        c9Handlers "balance" (JsonVal.obj [])).2.1 =
        (renderMenu c9Menus c9Handlers "balance" (JsonVal.obj [])).2.1 ∧
      flagIsSet (renderMenu c9Menus2 (fun _ => none) "home" (JsonVal.obj [])).2.1
        "home" = true) :=
  ⟨⟨rfl, by decide, rfl, rfl, rfl, rfl⟩,
    C9_handler_flag_one_shot c9Menus c9Menus2 c9Handlers c9Handlers (fun _ => none)
      "balance" "home" "home" (JsonVal.obj []) (JsonVal.obj []) (JsonVal.obj [])
      c9Cfg "balance.processBalanceRequest" rfl (by decide) rfl rfl rfl rfl⟩

/-! ## C8: request validation in `handleRequest`

Both bundled `ussd.controller.js` revisions validate `msisdn` and
`sessionid` before any session-store operation.  The rest of the turn
(`processUssdRequest`) is passed in as a function so the statement holds
for *every* turn behaviour: on the rejection path the store is returned
untouched regardless of it, i.e. no session is created, read-refreshed,
updated, or cleared. -/

/-- An inbound request body (an absent or empty form field is falsy). -/
structure HttpRequest where
  msisdn : Option String
  sessionid : Option String
  shortcode : Option String
  response : Option String

/-- JS truthiness of an optional string (`undefined` and `''` are falsy). -/
def truthyStr : Option String → Bool
  | some s => s ≠ ""
  | none => false

/-- `handleRequest(req, res)` (second-revision `ussd.controller.js`, lines
8–47): reject with 400 and a plain-text `end` frame when `msisdn` or
`sessionid` is falsy; otherwise get-or-create the session and hand over to
`processUssdRequest` (the `turn` parameter), answering 200 with
`` `${action} ${message}` ``.  Result: (HTTP status, body, store). -/
def handleRequest (turn : RStore → List (String × JsonVal) → Frame × RStore)
    (st : RStore) (now : Nat) (req : HttpRequest) : Nat × String × RStore :=
  if ¬truthyStr req.msisdn ∨ ¬truthyStr req.sessionid then
    (400, "end Invalid parameters", st)
  else
    let msisdn := req.msisdn.getD ""
    let sessionid := req.sessionid.getD ""
    let shortcode := req.shortcode.getD ""
    let got := getSession st now msisdn sessionid shortcode
    let created :=
      match got.2 with
      | some s => (got.1, s)
      | none => createSession got.1 now msisdn sessionid shortcode
    let answered := turn created.1 created.2
    (200, answered.1.action ++ " " ++ answered.1.message, answered.2)

/-- `handleRequest` of the first revision (lines 10–52): same validation
gate with body `end Invalid request parameters`; the session work happens
inside `processUssdRequest` (the `turn` parameter). -/
def handleRequestR1 (turn : RStore → Frame × RStore)
    (st : RStore) (req : HttpRequest) : Nat × String × RStore :=
  if ¬truthyStr req.msisdn ∨ ¬truthyStr req.sessionid then
    (400, "end Invalid request parameters", st)
  else
    let answered := turn st
    (200, answered.1.action ++ " " ++ answered.1.message, answered.2)

/-- C8: a request with missing (or empty) `msisdn` or `sessionid` is
answered with HTTP 400 and a plain-text `end` frame, and — for every
possible turn behaviour — the session store is returned exactly as it was:
no session is created, read-refreshed, updated, or cleared.  Both
controller revisions satisfy this (their rejection bodies differ only in
wording). -/
theorem C8_missing_params_400_no_side_effect
    (turn : RStore → List (String × JsonVal) → Frame × RStore)
    (turn1 : RStore → Frame × RStore)
    (st st1 : RStore) (now : Nat) (req req1 : HttpRequest)
    (hbad : ¬truthyStr req.msisdn ∨ ¬truthyStr req.sessionid)
    (hbad1 : ¬truthyStr req1.msisdn ∨ ¬truthyStr req1.sessionid) :
    handleRequest turn st now req = (400, "end Invalid parameters", st) ∧
    handleRequestR1 turn1 st1 req1 = (400, "end Invalid request parameters", st1) := by
  constructor
  · unfold handleRequest
    rw [if_pos hbad]
  · unfold handleRequestR1
    rw [if_pos hbad1]

/-- Witness for C8: a request with no `msisdn` (and one with an empty
`sessionid`) against a turn that would otherwise clear the store. -/
theorem C8_missing_params_400_no_side_effect_witness :
    ((¬truthyStr (none : Option String) ∨
        ¬truthyStr (some "S1" : Option String)) ∧
      (¬truthyStr (some "254700111222" : Option String) ∨
        ¬truthyStr (some "" : Option String))) ∧
    (handleRequest (fun _ _ => ({ name := "x", action := "end", message := "bye" }, []))
        c1Store 1000 ⟨none, some "S1", some "527", none⟩ =
      (400, "end Invalid parameters", c1Store) ∧
    handleRequestR1 (fun _ => ({ name := "x", action := "end", message := "bye" }, []))
        c1Store ⟨some "254700111222", some "", some "527", none⟩ =
      (400, "end Invalid request parameters", c1Store)) :=
  ⟨⟨by decide, by decide⟩,
    C8_missing_params_400_no_side_effect
      (fun _ _ => ({ name := "x", action := "end", message := "bye" }, []))
      (fun _ => ({ name := "x", action := "end", message := "bye" }, []))
      c1Store c1Store 1000 ⟨none, some "S1", some "527", none⟩
      ⟨some "254700111222", some "", some "527", none⟩ (by decide) (by decide)⟩

/-! ## C7: PII masking for logs (`maskSensitiveData`, `api.service.js`
lines 276–302)

Three global case-insensitive regex replacements run in order:
`/(OLDPIN|NEWPIN|TMPIN|TRXMPIN|LOGINMPIN|PASSWORD):([^:]+):/gi` and
`/(PIN|PASS|SECRET):([^:]+):/gi` replace the captured value with
`[MASKED]`; `/(MOBILENUMBER|ACCOUNTID|MSISDN):(\d+):/gi` keeps the first
and last three digits of values of length ≥ 6 and masks shorter ones.
Each is embedded as a leftmost, non-overlapping scan: at each position the
alternation keys are tried in order; a match consumes `KEY:value:` and
emits the captured key text, the replaced value, and the delimiters. -/

/-- Case-insensitive character comparison (the regex `i` flag), text
character first. -/
def ciEq (c kc : Char) : Bool := c.toUpper = kc.toUpper

/-- Match the alternation literal `kk` case-insensitively at the head of
`s`; returns the consumed original text and the rest. -/
def matchKeyCI : List Char → List Char → Option (List Char × List Char)
  | [], s => some ([], s)
  | _ :: _, [] => none
  | kc :: ks, c :: cs =>
    if ciEq c kc then
      match matchKeyCI ks cs with
      | some (kt, rest) => some (c :: kt, rest)
      | none => none
    else none

/-- After the key and its `:` matched: capture one-or-more value-class
characters and require the closing `:`; `kt` is the captured key text. -/
def tryVal (valCond : Char → Bool) (kt r2 : List Char) :
    Option (List Char × List Char × List Char) :=
  match r2.takeWhile valCond, r2.dropWhile valCond with
  | v0 :: vs, c2 :: rest =>
    if c2 = ':' then some (kt, v0 :: vs, rest) else none
  | _, _ => none

/-- Attempt the full pattern `KEY:value+:` for one alternation key at the
head of `s` (`valCond` is the value character class: `[^:]` or `\d`);
returns (captured key text, captured value, rest after the final `:`). -/
def tryKey (valCond : Char → Bool) (kk s : List Char) :
    Option (List Char × List Char × List Char) :=
  match matchKeyCI kk s with
  | some (kt, c1 :: r2) => if c1 = ':' then tryVal valCond kt r2 else none
  | _ => none

/-- Attempt the alternation keys in regex order at the head of `s`. -/
def tryPat (valCond : Char → Bool) : List (List Char) → List Char →
    Option (List Char × List Char × List Char)
  | [], _ => none
  | kk :: ks, s =>
    match tryKey valCond kk s with
    | some r => some r
    | none => tryPat valCond ks s

/-- The global-replace scan: leftmost matches, non-overlapping, continuing
after each match; written with a step budget (any budget at least the list
length yields the scan — every step consumes at least one character). -/
def maskScanFuel (keys : List (List Char)) (valCond : Char → Bool)
    (repl : List Char → List Char) : Nat → List Char → List Char
  | 0, l => l
  | _ + 1, [] => []
  | fuel + 1, c :: cs =>
    match tryPat valCond keys (c :: cs) with
    | some (kt, v, rest) =>
      kt ++ ':' :: (repl v ++ ':' :: maskScanFuel keys valCond repl fuel rest)
    | none => c :: maskScanFuel keys valCond repl fuel cs

def maskScan (keys : List (List Char)) (valCond : Char → Bool)
    (repl : List Char → List Char) (l : List Char) : List Char :=
  maskScanFuel keys valCond repl l.length l

def pat1Keys : List (List Char) :=
  ["OLDPIN".data, "NEWPIN".data, "TMPIN".data, "TRXMPIN".data,
   "LOGINMPIN".data, "PASSWORD".data]

def pat2Keys : List (List Char) := ["PIN".data, "PASS".data, "SECRET".data]

def pat3Keys : List (List Char) := ["MOBILENUMBER".data, "ACCOUNTID".data, "MSISDN".data]

/-- `[^:]`: the value class of the first two patterns. -/
def notColon (c : Char) : Bool := c ≠ ':'

/-- `` `${key}:[MASKED]:` `` -/
def maskedRepl (_ : List Char) : List Char := "[MASKED]".data

/-- The number-masking replacement: first three digits, `****`, last three
digits for values of length ≥ 6, `[MASKED]` otherwise. -/
def msisdnRepl (v : List Char) : List Char :=
  if v.length ≥ 6 then v.take 3 ++ "****".data ++ v.drop (v.length - 3)
  else "[MASKED]".data

/-- `maskSensitiveData(data)` (`api.service.js` lines 276–302). -/
def maskSensitiveData (s : String) : String :=
  if s = "" then ""
  else
    String.mk (maskScan pat3Keys Char.isDigit msisdnRepl
      (maskScan pat2Keys notColon maskedRepl
        (maskScan pat1Keys notColon maskedRepl s.data)))

/-- C7 counterexample: in the colon-tuple string `X:OLDPIN:NEWPIN:1234:`
the key `NEWPIN` carries the PIN value `1234`, yet masking leaves `1234`
in clear: the first pattern consumes `OLDPIN:NEWPIN:` (the *value*
`OLDPIN` of key `X` followed by the key `NEWPIN`) as one match, so the
actual PIN value escapes — the masked string still contains an unmasked
PIN value. -/
theorem C7_claim_false_misaligned_value :
    objLookup "NEWPIN" (parseDataString "X:OLDPIN:NEWPIN:1234:") = some "1234" ∧
    maskSensitiveData "X:OLDPIN:NEWPIN:1234:" = "X:OLDPIN:[MASKED]:1234:" ∧
    strIncludes "1234".data (maskSensitiveData "X:OLDPIN:NEWPIN:1234:").data = true :=
  ⟨rfl, rfl, rfl⟩

/-- Case-insensitive match of a text against an alternation literal
(text character first, as in `matchKeyCI`). -/
def ciListEq : List Char → List Char → Bool
  | [], [] => true
  | kc :: ks, c :: cs => ciEq c kc && ciListEq ks cs
  | _, _ => false

theorem toUpper_eq_colon_iff (c : Char) : c.toUpper = ':' ↔ c = ':' := by
  constructor
  · intro h
    by_contra hne
    unfold Char.toUpper at h
    by_cases hl : c.toNat ≥ 97 ∧ c.toNat ≤ 122
    · rw [if_pos hl] at h
      have hv : (Char.ofNat (c.toNat - 32)).toNat = c.toNat - 32 := by
        unfold Char.ofNat
        rw [dif_pos (by constructor <;> omega)]
        rfl
      have h58 := congrArg Char.toNat h
      rw [hv] at h58
      have : (':' : Char).toNat = 58 := by decide
      omega
    · rw [if_neg hl] at h
      exact hne h
  · intro h
    subst h
    rfl

theorem ciEq_colon_left {kc : Char} (h : kc ≠ ':') : ciEq ':' kc = false := by
  simp only [ciEq, decide_eq_false_iff_not]
  intro heq
  exact h (by
    have : kc.toUpper = ':' := by
      rw [← heq]
      rfl
    exact (toUpper_eq_colon_iff kc).mp this)

theorem ciEq_colon_right {c : Char} (h : c ≠ ':') : ciEq c ':' = false := by
  simp only [ciEq, decide_eq_false_iff_not]
  intro heq
  have : c.toUpper = ':' := by
    rw [heq]
    rfl
  exact h ((toUpper_eq_colon_iff c).mp this)

theorem ciListEq_length : ∀ {kk w : List Char}, ciListEq kk w = true →
    kk.length = w.length := by
  intro kk
  induction kk with
  | nil => intro w h; cases w with
    | nil => rfl
    | cons c cs => simp [ciListEq] at h
  | cons kc ks ih => intro w h; cases w with
    | nil => simp [ciListEq] at h
    | cons c cs =>
      simp only [ciListEq, Bool.and_eq_true] at h
      simp [ih h.2]

theorem ciListEq_nil_of_ne {kk : List Char} (h : kk ≠ []) :
    ciListEq kk [] = false := by
  cases kk with
  | nil => exact absurd rfl h
  | cons kc ks => rfl

theorem matchKeyCI_of_ciListEq : ∀ {kk w : List Char}, ciListEq kk w = true →
    ∀ rest, matchKeyCI kk (w ++ rest) = some (w, rest) := by
  intro kk
  induction kk with
  | nil =>
    intro w h rest
    cases w with
    | nil => rfl
    | cons c cs => simp [ciListEq] at h
  | cons kc ks ih =>
    intro w h rest
    cases w with
    | nil => simp [ciListEq] at h
    | cons c cs =>
      simp only [ciListEq, Bool.and_eq_true] at h
      simp [matchKeyCI, h.1, ih h.2 rest]

theorem matchKeyCI_tuple : ∀ (kk w : List Char), ':' ∉ kk → ':' ∉ w → ∀ tail,
    matchKeyCI kk (w ++ ':' :: tail) =
      if kk.length ≤ w.length ∧ ciListEq kk (w.take kk.length) = true
      then some (w.take kk.length, w.drop kk.length ++ ':' :: tail)
      else none := by
  intro kk
  induction kk with
  | nil =>
    intro w _ _ tail
    rw [if_pos ⟨Nat.zero_le _, rfl⟩]
    rfl
  | cons kc ks ih =>
    intro w hkk hw tail
    have hkc : kc ≠ ':' := fun he => hkk (he ▸ List.mem_cons_self kc ks)
    have hks : ':' ∉ ks := fun hm => hkk (List.mem_cons_of_mem _ hm)
    cases w with
    | nil =>
      simp only [List.nil_append]
      rw [show matchKeyCI (kc :: ks) (':' :: tail) = none from by
        simp [matchKeyCI, ciEq_colon_left hkc]]
      rw [if_neg (by simp)]
    | cons wc ws =>
      have hws : ':' ∉ ws := fun hm => hw (List.mem_cons_of_mem _ hm)
      simp only [List.cons_append, matchKeyCI, List.append_eq]
      by_cases hci : ciEq wc kc = true
      · rw [if_pos hci, ih ws hks hws tail]
        by_cases hc : ks.length ≤ ws.length ∧ ciListEq ks (ws.take ks.length) = true
        · rw [if_pos hc, if_pos ?side]
          case side =>
            refine ⟨by simpa using hc.1, ?_⟩
            simp only [List.length_cons, List.take_succ_cons, ciListEq,
              Bool.and_eq_true]
            exact ⟨hci, hc.2⟩
          simp [List.take_succ_cons, List.drop_succ_cons]
        · rw [if_neg hc, if_neg ?side2]
          case side2 =>
            intro hcc
            obtain ⟨h1, h2⟩ := hcc
            apply hc
            refine ⟨by simpa using h1, ?_⟩
            simp only [List.length_cons, List.take_succ_cons, ciListEq,
              Bool.and_eq_true] at h2
            exact h2.2
      · rw [if_neg hci, if_neg ?side3]
        case side3 =>
          intro hcc
          obtain ⟨h1, h2⟩ := hcc
          simp only [List.length_cons, List.take_succ_cons, ciListEq,
            Bool.and_eq_true] at h2
          exact hci h2.1
theorem takeWhile_app_all {p : Char → Bool} : ∀ {v : List Char} {c : Char}
    {t : List Char}, v.all p = true → p c = false →
    (v ++ c :: t).takeWhile p = v ∧ (v ++ c :: t).dropWhile p = c :: t := by
  intro v
  induction v with
  | nil =>
    intro c t _ hc
    simp [List.takeWhile_cons, List.dropWhile_cons, hc]
  | cons x xs ih =>
    intro c t hall hc
    simp only [List.all_cons, Bool.and_eq_true] at hall
    have := ih (c := c) (t := t) hall.2 hc
    simp [List.takeWhile_cons, List.dropWhile_cons, hall.1, this.1, this.2]

theorem dropWhile_bad {p : Char → Bool} : ∀ {v : List Char}, v.all p = false →
    ∃ b bs, v.dropWhile p = b :: bs ∧ p b = false ∧ b ∈ v := by
  intro v
  induction v with
  | nil => intro h; simp at h
  | cons x xs ih =>
    intro h
    by_cases hx : p x = true
    · simp only [List.all_cons, hx, Bool.true_and] at h
      obtain ⟨b, bs, h1, h2, h3⟩ := ih h
      exact ⟨b, bs, by simp [List.dropWhile_cons, hx, h1],
        h2, List.mem_cons_of_mem _ h3⟩
    · have hx' : p x = false := by simpa using hx
      exact ⟨x, xs, by simp [List.dropWhile_cons, hx'], hx',
        List.mem_cons_self _ _⟩

theorem takeWhile_app_bad {p : Char → Bool} : ∀ {v : List Char} {c : Char}
    {t : List Char}, v.all p = false →
    (v ++ c :: t).takeWhile p = v.takeWhile p ∧
    (v ++ c :: t).dropWhile p = v.dropWhile p ++ c :: t := by
  intro v
  induction v with
  | nil => intro c t h; simp at h
  | cons x xs ih =>
    intro c t h
    by_cases hx : p x = true
    · simp only [List.all_cons, hx, Bool.true_and] at h
      have := ih (c := c) (t := t) h
      simp [List.takeWhile_cons, List.dropWhile_cons, hx, this.1, this.2]
    · have hx' : p x = false := by simpa using hx
      simp [List.takeWhile_cons, List.dropWhile_cons, hx']

theorem tryVal_all {valCond : Char → Bool} {kt v tail : List Char}
    (hvne : v ≠ []) (hall : v.all valCond = true) (hvc : valCond ':' = false) :
    tryVal valCond kt (v ++ ':' :: tail) = some (kt, v, tail) := by
  have hsplit := takeWhile_app_all (v := v) (c := ':') (t := tail) hall hvc
  unfold tryVal
  rw [hsplit.1, hsplit.2]
  cases v with
  | nil => exact absurd rfl hvne
  | cons v0 vs => simp

theorem tryVal_bad {valCond : Char → Bool} {kt v tail : List Char}
    (hv : ':' ∉ v) (hall : v.all valCond = false) :
    tryVal valCond kt (v ++ ':' :: tail) = none := by
  have hsplit := takeWhile_app_bad (v := v) (c := ':') (t := tail) hall
  obtain ⟨b, bs, hb1, hb2, hb3⟩ := dropWhile_bad hall
  have hbne : b ≠ ':' := fun he => hv (he ▸ hb3)
  have h2 : (v ++ ':' :: tail).dropWhile valCond = b :: (bs ++ ':' :: tail) := by
    rw [hsplit.2, hb1]
    simp
  unfold tryVal
  rw [hsplit.1, h2]
  cases htk : v.takeWhile valCond with
  | nil => simp
  | cons a as => simp [hbne]

theorem tryVal_colon {valCond : Char → Bool} {kt tail : List Char}
    (hvc : valCond ':' = false) :
    tryVal valCond kt (':' :: tail) = none := by
  unfold tryVal
  simp [List.takeWhile_cons, hvc]

theorem tryKey_tuple (valCond : Char → Bool) (kk k v tail : List Char)
    (hkk : ':' ∉ kk) (hk : ':' ∉ k) (hv : ':' ∉ v)
    (hvc : valCond ':' = false) :
    tryKey valCond kk (k ++ ':' :: (v ++ ':' :: tail)) =
      if ciListEq kk k = true ∧ v ≠ [] ∧ v.all valCond = true
      then some (k, v, tail) else none := by
  unfold tryKey
  rw [matchKeyCI_tuple kk k hkk hk (v ++ ':' :: tail)]
  by_cases hc : kk.length ≤ k.length ∧ ciListEq kk (k.take kk.length) = true
  · rw [if_pos hc]
    by_cases hlen : kk.length = k.length
    · have htake : k.take kk.length = k := by rw [hlen, List.take_length]
      have hdrop : k.drop kk.length = [] := by
        rw [hlen]
        exact List.drop_eq_nil_of_le (Nat.le_refl _)
      rw [htake, hdrop]
      simp only [List.nil_append]
      have hci : ciListEq kk k = true := by rw [← htake]; exact hc.2
      show (if (':' : Char) = ':' then tryVal valCond k (v ++ ':' :: tail)
        else none) = _
      rw [if_pos rfl]
      by_cases hall : v.all valCond = true
      · cases hvne : v with
        | nil =>
          subst hvne
          rw [if_neg (fun hcc => hcc.2.1 rfl)]
          simp only [List.nil_append]
          exact tryVal_colon hvc
        | cons v0 vs =>
          subst hvne
          rw [if_pos ⟨hci, by simp, hall⟩]
          exact tryVal_all (by simp) hall hvc
      · have hall2 : v.all valCond = false := by simpa using hall
        rw [if_neg (fun hcc => hall hcc.2.2)]
        exact tryVal_bad hv hall2
    · have hlt : kk.length < k.length := Nat.lt_of_le_of_ne hc.1 hlen
      obtain ⟨d, ds, hd⟩ : ∃ d ds, k.drop kk.length = d :: ds := by
        cases hdrop : k.drop kk.length with
        | nil =>
          have := List.drop_eq_nil_iff.mp hdrop
          omega
        | cons d ds => exact ⟨d, ds, rfl⟩
      rw [hd]
      simp only [List.cons_append]
      have hdne : d ≠ ':' := fun he => hk (he ▸ List.mem_of_mem_drop
        (hd ▸ List.mem_cons_self d ds))
      show (if d = ':' then tryVal valCond (k.take kk.length)
        (ds ++ ':' :: (v ++ ':' :: tail)) else none) = _
      rw [if_neg hdne, if_neg (by
        intro hcc
        have := ciListEq_length hcc.1
        omega)]
  · rw [if_neg hc, if_neg (by
      intro hcc
      apply hc
      have hlen := ciListEq_length hcc.1
      refine ⟨by omega, ?_⟩
      rw [hlen, List.take_length]
      exact hcc.1)]

theorem tryVal_nil (valCond : Char → Bool) (kt : List Char) :
    tryVal valCond kt [] = none := rfl

theorem tryKey_last (valCond : Char → Bool) (kk w : List Char)
    (hkk : ':' ∉ kk) (hw : ':' ∉ w) :
    tryKey valCond kk (w ++ [':']) = none := by
  unfold tryKey
  rw [matchKeyCI_tuple kk w hkk hw []]
  by_cases hc : kk.length ≤ w.length ∧ ciListEq kk (w.take kk.length) = true
  · rw [if_pos hc]
    cases hdrop : w.drop kk.length with
    | nil =>
      simp only [List.nil_append]
      show (if (':' : Char) = ':' then tryVal valCond (w.take kk.length) []
        else none) = none
      rw [if_pos rfl]
      rfl
    | cons d ds =>
      simp only [List.cons_append]
      have hdne : d ≠ ':' := fun he => hw (he ▸ List.mem_of_mem_drop
        (hdrop ▸ List.mem_cons_self d ds))
      show (if d = ':' then tryVal valCond (w.take kk.length) (ds ++ [':'])
        else none) = none
      rw [if_neg hdne]
  · rw [if_neg hc]

theorem tryKey_colon (valCond : Char → Bool) (kk tail : List Char)
    (hkk : ':' ∉ kk) (hne : kk ≠ []) :
    tryKey valCond kk (':' :: tail) = none := by
  cases kk with
  | nil => exact absurd rfl hne
  | cons kc ks =>
    have hkc : kc ≠ ':' := fun he => hkk (he ▸ List.mem_cons_self kc ks)
    unfold tryKey
    rw [show matchKeyCI (kc :: ks) (':' :: tail) = none from by
      simp [matchKeyCI, ciEq_colon_left hkc]]

/-- Does some alternation key case-insensitively equal the text `s`? -/
def anyKeyCI (keys : List (List Char)) (s : List Char) : Bool :=
  keys.any (fun kk => ciListEq kk s)

theorem tryPat_tuple (valCond : Char → Bool) (keys : List (List Char))
    (k v tail : List Char) (hkeys : ∀ kk ∈ keys, ':' ∉ kk)
    (hk : ':' ∉ k) (hv : ':' ∉ v) (hvc : valCond ':' = false) :
    tryPat valCond keys (k ++ ':' :: (v ++ ':' :: tail)) =
      if anyKeyCI keys k = true ∧ v ≠ [] ∧ v.all valCond = true
      then some (k, v, tail) else none := by
  induction keys with
  | nil => simp [tryPat, anyKeyCI]
  | cons kk ks ih =>
    have hkk := hkeys kk (List.mem_cons_self kk ks)
    have hks : ∀ x ∈ ks, ':' ∉ x := fun x hx => hkeys x (List.mem_cons_of_mem _ hx)
    simp only [tryPat]
    rw [tryKey_tuple valCond kk k v tail hkk hk hv hvc, ih hks]
    by_cases hcond : ciListEq kk k = true ∧ v ≠ [] ∧ v.all valCond = true
    · rw [if_pos hcond]
      show some (k, v, tail) = _
      rw [if_pos ⟨by simp [anyKeyCI, hcond.1], hcond.2.1, hcond.2.2⟩]
    · rw [if_neg hcond]
      show (if anyKeyCI ks k = true ∧ v ≠ [] ∧ v.all valCond = true
        then some (k, v, tail) else none) = _
      by_cases hci : ciListEq kk k = true
      · have hP : ¬(v ≠ [] ∧ v.all valCond = true) :=
          fun hp => hcond ⟨hci, hp.1, hp.2⟩
        rw [if_neg (fun hc => hP ⟨hc.2.1, hc.2.2⟩),
          if_neg (fun hc => hP ⟨hc.2.1, hc.2.2⟩)]
      · have hci2 : ciListEq kk k = false := by simpa using hci
        have : anyKeyCI (kk :: ks) k = anyKeyCI ks k := by
          simp [anyKeyCI, List.any_cons, hci2]
        rw [this]

theorem tryPat_colon (valCond : Char → Bool) (keys : List (List Char))
    (tail : List Char) (hkeys : ∀ kk ∈ keys, ':' ∉ kk ∧ kk ≠ []) :
    tryPat valCond keys (':' :: tail) = none := by
  induction keys with
  | nil => rfl
  | cons kk ks ih =>
    obtain ⟨h1, h2⟩ := hkeys kk (List.mem_cons_self kk ks)
    simp only [tryPat]
    rw [tryKey_colon valCond kk tail h1 h2]
    exact ih (fun x hx => hkeys x (List.mem_cons_of_mem _ hx))

theorem tryPat_last (valCond : Char → Bool) (keys : List (List Char))
    (w : List Char) (hkeys : ∀ kk ∈ keys, ':' ∉ kk) (hw : ':' ∉ w) :
    tryPat valCond keys (w ++ [':']) = none := by
  induction keys with
  | nil => rfl
  | cons kk ks ih =>
    simp only [tryPat]
    rw [tryKey_last valCond kk w (hkeys kk (List.mem_cons_self kk ks)) hw]
    exact ih (fun x hx => hkeys x (List.mem_cons_of_mem _ hx))

theorem matchKeyCI_decomp : ∀ (kk s kt r : List Char),
    matchKeyCI kk s = some (kt, r) → s = kt ++ r := by
  intro kk
  induction kk with
  | nil =>
    intro s kt r h
    simp only [matchKeyCI, Option.some.injEq, Prod.mk.injEq] at h
    rw [← h.1, ← h.2]
    simp
  | cons kc ks ih =>
    intro s kt r h
    cases s with
    | nil => simp [matchKeyCI] at h
    | cons c cs =>
      simp only [matchKeyCI] at h
      by_cases hci : ciEq c kc = true
      · rw [if_pos hci] at h
        rcases hm : matchKeyCI ks cs with _ | p
        · rw [hm] at h
          simp at h
        · obtain ⟨kt2, r2⟩ := p
          rw [hm] at h
          simp only [Option.some.injEq, Prod.mk.injEq] at h
          rw [← h.1, ← h.2]
          have := ih cs kt2 r2 hm
          simp [this]
      · rw [if_neg hci] at h
        simp at h

theorem tryVal_decomp (valCond : Char → Bool) (kt r2 kt2 v rest : List Char)
    (h : tryVal valCond kt r2 = some (kt2, v, rest)) :
    kt2 = kt ∧ r2 = v ++ ':' :: rest := by
  unfold tryVal at h
  rcases ht : r2.takeWhile valCond with _ | ⟨v0, vs⟩
  · rw [ht] at h
    simp at h
  · rcases hd : r2.dropWhile valCond with _ | ⟨c2, rest2⟩
    · rw [ht, hd] at h
      simp at h
    · rw [ht, hd] at h
      by_cases hc2 : c2 = ':'
      · have h2 : (if c2 = ':' then some (kt, v0 :: vs, rest2) else none)
            = some (kt2, v, rest) := h
        rw [if_pos hc2] at h2
        simp only [Option.some.injEq, Prod.mk.injEq] at h2
        refine ⟨h2.1.symm, ?_⟩
        rw [← h2.2.1, ← h2.2.2, ← hc2, ← ht, ← hd]
        exact (List.takeWhile_append_dropWhile valCond r2).symm
      · have h2 : (if c2 = ':' then some (kt, v0 :: vs, rest2) else none)
            = some (kt2, v, rest) := h
        rw [if_neg hc2] at h2
        simp at h2

theorem tryKey_decomp (valCond : Char → Bool) (kk s kt v rest : List Char)
    (h : tryKey valCond kk s = some (kt, v, rest)) :
    s = kt ++ ':' :: (v ++ ':' :: rest) := by
  unfold tryKey at h
  rcases hm : matchKeyCI kk s with _ | p
  · rw [hm] at h
    simp at h
  · obtain ⟨kt2, r⟩ := p
    rw [hm] at h
    cases r with
    | nil => simp at h
    | cons c1 r2 =>
      have h2 : (if c1 = ':' then tryVal valCond kt2 r2 else none)
          = some (kt, v, rest) := h
      by_cases hc1 : c1 = ':'
      · rw [if_pos hc1] at h2
        obtain ⟨he1, he2⟩ := tryVal_decomp valCond kt2 r2 kt v rest h2
        have hs := matchKeyCI_decomp kk s kt2 (c1 :: r2) hm
        rw [hs, he1, hc1, he2]
      · rw [if_neg hc1] at h2
        simp at h2

theorem tryPat_decomp (valCond : Char → Bool) : ∀ (keys : List (List Char))
    (s kt v rest : List Char),
    tryPat valCond keys s = some (kt, v, rest) →
    s = kt ++ ':' :: (v ++ ':' :: rest) := by
  intro keys
  induction keys with
  | nil => intro s kt v rest h; simp [tryPat] at h
  | cons kk ks ih =>
    intro s kt v rest h
    simp only [tryPat] at h
    rcases hk : tryKey valCond kk s with _ | r
    · rw [hk] at h
      exact ih s kt v rest h
    · obtain ⟨a, b, c⟩ := r
      rw [hk] at h
      have he : (a, b, c) = ((kt, v, rest) : List Char × List Char × List Char) := by
        simpa using h
      rw [he] at hk
      exact tryKey_decomp valCond kk s kt v rest hk

theorem maskScanFuel_congr (keys : List (List Char)) (vc : Char → Bool)
    (repl : List Char → List Char) : ∀ (n : Nat) (m : Nat) (l : List Char),
    l.length ≤ n → l.length ≤ m →
    maskScanFuel keys vc repl n l = maskScanFuel keys vc repl m l := by
  intro n
  induction n with
  | zero =>
    intro m l hn _
    have hl : l = [] := List.length_eq_zero.mp (Nat.le_zero.mp hn)
    subst hl
    cases m with
    | zero => rfl
    | succ m2 => rfl
  | succ n2 ih =>
    intro m l hn hm
    cases l with
    | nil =>
      cases m with
      | zero => rfl
      | succ m2 => rfl
    | cons c cs =>
      cases m with
      | zero => simp at hm
      | succ m2 =>
        simp only [maskScanFuel]
        rcases hp : tryPat vc keys (c :: cs) with _ | r
        · show c :: maskScanFuel keys vc repl n2 cs
            = c :: maskScanFuel keys vc repl m2 cs
          rw [ih m2 cs (by simp at hn; omega) (by simp at hm; omega)]
        · obtain ⟨kt, v, rest⟩ := r
          have hdec := tryPat_decomp vc keys (c :: cs) kt v rest hp
          have hlen : rest.length + 2 ≤ cs.length + 1 := by
            have := congrArg List.length hdec
            simp [List.length_append] at this
            omega
          show kt ++ ':' :: (repl v ++ ':' :: maskScanFuel keys vc repl n2 rest)
            = kt ++ ':' :: (repl v ++ ':' :: maskScanFuel keys vc repl m2 rest)
          rw [ih m2 rest (by simp at hn; omega) (by simp at hm; omega)]

theorem maskScanFuel_skip_seg (keys : List (List Char)) (vc : Char → Bool)
    (repl : List Char → List Char) : ∀ (s rest : List Char) (fuel : Nat),
    (∀ s2, List.IsSuffix s2 s → tryPat vc keys (s2 ++ ':' :: rest) = none) →
    (s ++ ':' :: rest).length ≤ fuel →
    maskScanFuel keys vc repl fuel (s ++ ':' :: rest) =
      s ++ ':' :: maskScanFuel keys vc repl rest.length rest := by
  intro s
  induction s with
  | nil =>
    intro rest fuel hno hfuel
    simp only [List.nil_append] at hfuel ⊢
    cases fuel with
    | zero => simp at hfuel
    | succ f =>
      simp only [maskScanFuel]
      have h0 := hno [] List.nil_suffix
      simp only [List.nil_append] at h0
      rw [h0]
      show ':' :: maskScanFuel keys vc repl f rest = _
      rw [maskScanFuel_congr keys vc repl f rest.length rest
        (by simp at hfuel; omega) (Nat.le_refl _)]
  | cons c cs ih =>
    intro rest fuel hno hfuel
    cases fuel with
    | zero => simp at hfuel
    | succ f =>
      simp only [List.cons_append, maskScanFuel, List.append_eq]
      have h0 := hno (c :: cs) (List.suffix_refl _)
      simp only [List.cons_append] at h0
      rw [h0]
      show c :: maskScanFuel keys vc repl f (cs ++ ':' :: rest) = _
      rw [ih rest f (fun s2 hs2 => hno s2 (hs2.trans (List.suffix_cons c cs)))
        (by simp at hfuel ⊢; omega)]

/-- No proper suffix of `s` case-insensitively equals an alternation key. -/
def tailsClean (keys : List (List Char)) : List Char → Bool
  | [] => true
  | _ :: cs => !anyKeyCI keys cs && tailsClean keys cs

theorem tailsClean_suffix (keys : List (List Char)) : ∀ (s s2 : List Char),
    tailsClean keys s = true → List.IsSuffix s2 s → s2 ≠ s →
    anyKeyCI keys s2 = false := by
  intro s
  induction s with
  | nil =>
    intro s2 _ hsuf hne
    exact absurd (List.suffix_nil.mp hsuf) hne
  | cons c cs ih =>
    intro s2 hclean hsuf hne
    simp only [tailsClean, Bool.and_eq_true, Bool.not_eq_true'] at hclean
    rcases List.suffix_cons_iff.mp hsuf with h | h
    · exact absurd h hne
    · by_cases he : s2 = cs
      · rw [he]
        exact hclean.1
      · exact ih s2 hclean.2 h he

theorem maskScanFuel_walk_pair (keys : List (List Char)) (vc : Char → Bool)
    (repl : List Char → List Char)
    (hkeys : ∀ kk ∈ keys, ':' ∉ kk ∧ kk ≠ []) (hvc : vc ':' = false)
    (v T : List Char) (hv : ':' ∉ v)
    (hvT : ∀ v2, List.IsSuffix v2 v → tryPat vc keys (v2 ++ ':' :: T) = none) :
    ∀ (s : List Char) (fuel : Nat), ':' ∉ s →
    (∀ s2, List.IsSuffix s2 s → anyKeyCI keys s2 = true → v ≠ [] →
      v.all vc = true → repl v = v) →
    (s ++ ':' :: (v ++ ':' :: T)).length ≤ fuel →
    maskScanFuel keys vc repl fuel (s ++ ':' :: (v ++ ':' :: T)) =
      s ++ ':' :: (v ++ ':' :: maskScanFuel keys vc repl T.length T) := by
  intro s
  induction s with
  | nil =>
    intro fuel _ _ hfuel
    simp only [List.nil_append] at hfuel ⊢
    cases fuel with
    | zero => simp at hfuel
    | succ f =>
      simp only [maskScanFuel]
      rw [tryPat_colon vc keys (v ++ ':' :: T) hkeys]
      show ':' :: maskScanFuel keys vc repl f (v ++ ':' :: T) = _
      rw [maskScanFuel_skip_seg keys vc repl v T f hvT
        (by simp at hfuel ⊢; omega)]
  | cons c cs ih =>
    intro fuel hs hben hfuel
    have hcs : ':' ∉ cs := fun hm => hs (List.mem_cons_of_mem _ hm)
    cases fuel with
    | zero => simp at hfuel
    | succ f =>
      simp only [List.cons_append, maskScanFuel, List.append_eq]
      have htp := tryPat_tuple vc keys (c :: cs) v T
        (fun kk hkk => (hkeys kk hkk).1) hs hv hvc
      simp only [List.cons_append] at htp
      rw [htp]
      by_cases hA : anyKeyCI keys (c :: cs) = true ∧ v ≠ [] ∧ v.all vc = true
      · rw [if_pos hA]
        have hrv : repl v = v :=
          hben (c :: cs) (List.suffix_refl _) hA.1 hA.2.1 hA.2.2
        show (c :: cs) ++ ':' :: (repl v ++ ':' ::
          maskScanFuel keys vc repl f T) = _
        rw [hrv, maskScanFuel_congr keys vc repl f T.length T
          (by simp at hfuel; omega) (Nat.le_refl _)]
        simp
      · rw [if_neg hA]
        show c :: maskScanFuel keys vc repl f (cs ++ ':' :: (v ++ ':' :: T)) = _
        rw [ih f hcs (fun s2 hs2 => hben s2 (hs2.trans (List.suffix_cons c cs)))
          (by simp at hfuel ⊢; omega)]

theorem maskScanFuel_pair_step (keys : List (List Char)) (vc : Char → Bool)
    (repl : List Char → List Char)
    (hkeys : ∀ kk ∈ keys, ':' ∉ kk ∧ kk ≠ []) (hvc : vc ':' = false)
    (k v T : List Char) (hk : ':' ∉ k) (hkne : k ≠ [])
    (hv : ':' ∉ v) (hvne : v ≠ [])
    (hvT : ∀ v2, List.IsSuffix v2 v → tryPat vc keys (v2 ++ ':' :: T) = none)
    (hben : ∀ s2, List.IsSuffix s2 k → s2 ≠ k → anyKeyCI keys s2 = true →
      v.all vc = true → repl v = v)
    (fuel : Nat) (hfuel : (k ++ ':' :: (v ++ ':' :: T)).length ≤ fuel) :
    maskScanFuel keys vc repl fuel (k ++ ':' :: (v ++ ':' :: T)) =
      k ++ ':' :: ((if anyKeyCI keys k = true ∧ v.all vc = true then repl v
        else v) ++ ':' :: maskScanFuel keys vc repl T.length T) := by
  by_cases hA : anyKeyCI keys k = true ∧ v.all vc = true
  · rw [if_pos hA]
    cases k with
    | nil => exact absurd rfl hkne
    | cons c cs =>
      cases fuel with
      | zero => simp at hfuel
      | succ f =>
        simp only [List.cons_append, maskScanFuel, List.append_eq]
        have htp := tryPat_tuple vc keys (c :: cs) v T
          (fun kk hkk => (hkeys kk hkk).1) hk hv hvc
        simp only [List.cons_append] at htp
        rw [htp, if_pos ⟨hA.1, hvne, hA.2⟩]
        show (c :: cs) ++ ':' :: (repl v ++ ':' ::
          maskScanFuel keys vc repl f T) = _
        rw [maskScanFuel_congr keys vc repl f T.length T
          (by simp at hfuel; omega) (Nat.le_refl _)]
        simp
  · rw [if_neg hA]
    refine maskScanFuel_walk_pair keys vc repl hkeys hvc v T hv hvT k fuel hk
      ?_ hfuel
    intro s2 hs2 hany hne hall
    by_cases he : s2 = k
    · rw [he] at hany
      exact absurd ⟨hany, hall⟩ hA
    · exact hben s2 hs2 he hany hall

/-- The `KEY:VALUE:` encoding of a tuple list at character level. -/
def encPairs : List (List Char × List Char) → List Char
  | [] => []
  | (k, v) :: rest => k ++ ':' :: (v ++ ':' :: encPairs rest)

/-- One masking pass on a single tuple: the value is replaced when the key
equals an alternation key (case-insensitively) and the value fits the
value class. -/
def maskPairF (keys : List (List Char)) (vc : Char → Bool)
    (repl : List Char → List Char) (p : List Char × List Char) :
    List Char × List Char :=
  (p.1, if anyKeyCI keys p.1 = true ∧ p.2.all vc = true then repl p.2 else p.2)

/-- Cleanliness of one tuple for one pass: key and value non-empty and
colon-free, the value never looks like an alternation key at any suffix,
and a match starting at a proper suffix of the key (only possible when the
key is not suffix-clean) rewrites the value to itself. -/
def PairClean (keys : List (List Char)) (vc : Char → Bool)
    (repl : List Char → List Char) (p : List Char × List Char) : Prop :=
  ':' ∉ p.1 ∧ p.1 ≠ [] ∧ ':' ∉ p.2 ∧ p.2 ≠ [] ∧
  anyKeyCI keys p.2 = false ∧ tailsClean keys p.2 = true ∧
  (tailsClean keys p.1 = false → p.2.all vc = true → repl p.2 = p.2)

theorem maskScanFuel_pairs (keys : List (List Char)) (vc : Char → Bool)
    (repl : List Char → List Char)
    (hkeys : ∀ kk ∈ keys, ':' ∉ kk ∧ kk ≠ []) (hvc : vc ':' = false) :
    ∀ (ps : List (List Char × List Char)),
    (∀ p ∈ ps, PairClean keys vc repl p) →
    maskScanFuel keys vc repl (encPairs ps).length (encPairs ps) =
      encPairs (ps.map (maskPairF keys vc repl)) := by
  intro ps
  induction ps with
  | nil => intro _; rfl
  | cons p rest ih =>
    intro hps
    obtain ⟨k, v⟩ := p
    obtain ⟨h1, h2, h3, h4, h5, h6, h7⟩ := hps (k, v) (List.mem_cons_self _ _)
    have hrest : ∀ q ∈ rest, PairClean keys vc repl q :=
      fun q hq => hps q (List.mem_cons_of_mem _ hq)
    have hvT : ∀ v2, List.IsSuffix v2 v →
        tryPat vc keys (v2 ++ ':' :: encPairs rest) = none := by
      intro v2 hsuf
      have hv2 : ':' ∉ v2 := fun hm => h3 (hsuf.subset hm)
      have hany : anyKeyCI keys v2 = false := by
        by_cases he : v2 = v
        · rw [he]
          exact h5
        · exact tailsClean_suffix keys v v2 h6 hsuf he
      cases rest with
      | nil =>
        exact tryPat_last vc keys v2 (fun kk hkk => (hkeys kk hkk).1) hv2
      | cons q rest2 =>
        obtain ⟨k2, w2⟩ := q
        obtain ⟨g1, g2, _, _, _, _, _⟩ := hrest (k2, w2) (List.mem_cons_self _ _)
        rw [show encPairs ((k2, w2) :: rest2)
            = k2 ++ ':' :: (w2 ++ ':' :: encPairs rest2) from rfl]
        rw [tryPat_tuple vc keys v2 k2 (w2 ++ ':' :: encPairs rest2)
          (fun kk hkk => (hkeys kk hkk).1) hv2 g1 hvc]
        rw [if_neg (fun hc => by rw [hany] at hc; exact absurd hc.1 (by simp))]
    have hben : ∀ s2, List.IsSuffix s2 k → s2 ≠ k → anyKeyCI keys s2 = true →
        v.all vc = true → repl v = v := by
      intro s2 hs2 hne hany hall
      by_cases htc : tailsClean keys k = true
      · rw [tailsClean_suffix keys k s2 htc hs2 hne] at hany
        exact absurd hany (by simp)
      · exact h7 (by simpa using htc) hall
    show maskScanFuel keys vc repl (encPairs ((k, v) :: rest)).length
      (encPairs ((k, v) :: rest)) = _
    rw [show encPairs ((k, v) :: rest)
        = k ++ ':' :: (v ++ ':' :: encPairs rest) from rfl]
    rw [maskScanFuel_pair_step keys vc repl hkeys hvc k v (encPairs rest)
      h1 h2 h3 h4 hvT hben _ (Nat.le_refl _)]
    rw [ih hrest]
    rfl

theorem maskScan_pairs (keys : List (List Char)) (vc : Char → Bool)
    (repl : List Char → List Char)
    (hkeys : ∀ kk ∈ keys, ':' ∉ kk ∧ kk ≠ []) (hvc : vc ':' = false)
    (ps : List (List Char × List Char))
    (hps : ∀ p ∈ ps, PairClean keys vc repl p) :
    maskScan keys vc repl (encPairs ps) =
      encPairs (ps.map (maskPairF keys vc repl)) :=
  maskScanFuel_pairs keys vc repl hkeys hvc ps hps

/-- Character-level view of a tuple of strings. -/
def dp (p : String × String) : List Char × List Char := (p.1.data, p.2.data)

def pairsData (M : List (String × String)) : List (List Char × List Char) :=
  M.map dp

theorem buildKVString_data : ∀ (M : List (String × String)),
    (∀ p ∈ M, p.2 ≠ "") →
    (buildKVString M).data = encPairs (pairsData M) := by
  intro M
  induction M with
  | nil => intro _; rfl
  | cons p rest ih =>
    intro h
    obtain ⟨k, v⟩ := p
    have hv : v ≠ "" := h (k, v) (List.mem_cons_self _ _)
    have hbuild : buildKVString ((k, v) :: rest) =
        k ++ ":" ++ v ++ ":" ++ buildKVString rest := by
      simp [buildKVString, hv]
    have hdata : (buildKVString ((k, v) :: rest)).data =
        k.data ++ ':' :: (v.data ++ ':' :: (buildKVString rest).data) := by
      rw [hbuild]
      simp [String.data_append]
    rw [hdata, ih (fun q hq => h q (List.mem_cons_of_mem _ hq))]
    rfl

theorem all_notColon {v : List Char} (hv : ':' ∉ v) : v.all notColon = true := by
  rw [List.all_eq_true]
  intro x hx
  simp only [notColon, ne_eq, decide_eq_true_eq]
  exact fun he => hv (he ▸ hx)

theorem msisdnRepl_ne_nil (v : List Char) : msisdnRepl v ≠ [] := by
  unfold msisdnRepl
  by_cases h : v.length ≥ 6
  · rw [if_pos h]
    intro he
    have hl := congrArg List.length he
    rw [List.length_append, List.length_append,
      show ("****".data).length = 4 from rfl] at hl
    simp at hl
  · rw [if_neg h]
    intro he
    exact absurd he (by decide)

theorem strMk_ne_empty {l : List Char} (h : l ≠ []) : String.mk l ≠ "" := by
  intro he
  exact h (congrArg String.data he)

theorem maskPairF_colon_eval (keys : List (List Char)) (k v : List Char)
    (hv : ':' ∉ v) :
    maskPairF keys notColon maskedRepl (k, v) =
      (k, if anyKeyCI keys k = true then "[MASKED]".data else v) := by
  by_cases hA : anyKeyCI keys k = true
  · simp [maskPairF, hA, all_notColon hv, maskedRepl]
  · have hA2 : anyKeyCI keys k = false := by simpa using hA
    simp [maskPairF, hA2]

theorem maskPairF_digit_eval (k v : List Char) :
    maskPairF pat3Keys Char.isDigit msisdnRepl (k, v) =
      (k, if anyKeyCI pat3Keys k = true ∧ v.all Char.isDigit = true
        then msisdnRepl v else v) := rfl

/-- The spec's per-tuple masking, modelled from the spec's words for the
comparison: a sensitive key's value becomes `[MASKED]`; a number key's
all-digit value keeps its first and last three digits when it has at least
six (shorter all-digit values are fully masked); other values are kept. -/
def maskPair (p : String × String) : String × String :=
  (p.1,
   if anyKeyCI pat1Keys p.1.data = true ∨ anyKeyCI pat2Keys p.1.data = true then
     "[MASKED]"
   else if anyKeyCI pat3Keys p.1.data = true ∧
       p.2.data.all Char.isDigit = true then
     String.mk (msisdnRepl p.2.data)
   else
     p.2)

/-- Alignment condition of the corrected C7 for one tuple: key and value
are non-empty and colon-free; no suffix of the value and no proper suffix
of the key accidentally equals an alternation key of the three masking
patterns, except that a key whose proper suffix is `PIN`/`PASS`/`SECRET`
must itself be one of the first pattern's keys (as `OLDPIN` is). -/
abbrev MaskAligned (p : String × String) : Prop :=
  p.1.data ≠ [] ∧ ':' ∉ p.1.data ∧ p.2.data ≠ [] ∧ ':' ∉ p.2.data ∧
  tailsClean pat1Keys p.1.data = true ∧
  tailsClean pat3Keys p.1.data = true ∧
  (tailsClean pat2Keys p.1.data = false → anyKeyCI pat1Keys p.1.data = true) ∧
  anyKeyCI pat1Keys p.2.data = false ∧ tailsClean pat1Keys p.2.data = true ∧
  anyKeyCI pat2Keys p.2.data = false ∧ tailsClean pat2Keys p.2.data = true ∧
  anyKeyCI pat3Keys p.2.data = false ∧ tailsClean pat3Keys p.2.data = true

/-- **C7** (corrected).  For a `KEY:VALUE:` tuple string whose tuples are
mask-aligned — keys and values non-empty and colon-free, and no value or
key-interior text accidentally spells an alternation key — the masked form
is exactly the tuple-by-tuple masking `maskPair`: every value of the eight
sensitive keys becomes `[MASKED]`, every all-digit `MOBILENUMBER` /
`ACCOUNTID` / `MSISDN` value of length at least six keeps only its first
and last three digits, and every other tuple is unchanged.  (As frozen the
claim is false for general tuple strings: see the counterexample.) -/
theorem C7_mask_per_tuple (M : List (String × String))
    (h : ∀ p ∈ M, MaskAligned p) :
    maskSensitiveData (buildKVString M) = buildKVString (M.map maskPair) := by
  have hvne : ∀ p ∈ M, p.2 ≠ "" := by
    intro p hp he
    exact (h p hp).2.2.1 (by rw [he])
  have hdata := buildKVString_data M hvne
  cases M with
  | nil => rfl
  | cons p0 M0 =>
    have hne : buildKVString (p0 :: M0) ≠ "" := by
      intro he
      have h0 : (buildKVString (p0 :: M0)).data = [] := by rw [he]
      rw [hdata] at h0
      obtain ⟨K0, V0⟩ := p0
      have hlen := congrArg List.length h0
      rw [show pairsData ((K0, V0) :: M0)
          = (K0.data, V0.data) :: pairsData M0 from rfl] at hlen
      rw [show encPairs ((K0.data, V0.data) :: pairsData M0)
          = K0.data ++ ':' :: (V0.data ++ ':' :: encPairs (pairsData M0))
        from rfl] at hlen
      simp [List.length_append] at hlen
    unfold maskSensitiveData
    rw [if_neg hne]
    rw [show (buildKVString (p0 :: M0)).data
        = encPairs (pairsData (p0 :: M0)) from hdata]
    have hkeys1 : ∀ kk ∈ pat1Keys, ':' ∉ kk ∧ kk ≠ [] := by decide
    have hkeys2 : ∀ kk ∈ pat2Keys, ':' ∉ kk ∧ kk ≠ [] := by decide
    have hkeys3 : ∀ kk ∈ pat3Keys, ':' ∉ kk ∧ kk ≠ [] := by decide
    have hnc : notColon ':' = false := by decide
    have hdg : Char.isDigit ':' = false := by decide
    have hps1 : ∀ q ∈ pairsData (p0 :: M0),
        PairClean pat1Keys notColon maskedRepl q := by
      intro q hq
      obtain ⟨P, hP, hPq⟩ := List.mem_map.mp hq
      obtain ⟨K, V⟩ := P
      obtain ⟨a1, a2, a3, a4, b1, b3, b2imp, c11, c12, c21, c22, c31, c32⟩ :=
        h (K, V) hP
      rw [← hPq]
      exact ⟨a2, a1, a4, a3, c11, c12, fun hf _ => absurd hf (by simp [dp, b1])⟩
    rw [maskScan_pairs pat1Keys notColon maskedRepl hkeys1 hnc _ hps1]
    have hps2 : ∀ q ∈ (pairsData (p0 :: M0)).map
        (maskPairF pat1Keys notColon maskedRepl),
        PairClean pat2Keys notColon maskedRepl q := by
      intro q hq
      obtain ⟨r, hr, hrq⟩ := List.mem_map.mp hq
      obtain ⟨P, hP, hPr⟩ := List.mem_map.mp hr
      obtain ⟨K, V⟩ := P
      obtain ⟨a1, a2, a3, a4, b1, b3, b2imp, c11, c12, c21, c22, c31, c32⟩ :=
        h (K, V) hP
      rw [← hrq, ← hPr]
      simp only [dp]
      rw [maskPairF_colon_eval pat1Keys K.data V.data a4]
      by_cases hA1 : anyKeyCI pat1Keys K.data = true
      · rw [if_pos hA1]
        exact ⟨a2, a1, show ':' ∉ "[MASKED]".data by decide,
          show "[MASKED]".data ≠ [] by decide,
          show anyKeyCI pat2Keys "[MASKED]".data = false by decide,
          show tailsClean pat2Keys "[MASKED]".data = true by decide,
          fun _ _ => rfl⟩
      · rw [if_neg hA1]
        exact ⟨a2, a1, a4, a3, c21, c22, fun hf _ => absurd (b2imp hf) hA1⟩
    rw [maskScan_pairs pat2Keys notColon maskedRepl hkeys2 hnc _ hps2]
    have hps3 : ∀ q ∈ ((pairsData (p0 :: M0)).map
        (maskPairF pat1Keys notColon maskedRepl)).map
        (maskPairF pat2Keys notColon maskedRepl),
        PairClean pat3Keys Char.isDigit msisdnRepl q := by
      intro q hq
      obtain ⟨r2, hr2, hr2q⟩ := List.mem_map.mp hq
      obtain ⟨r, hr, hrq⟩ := List.mem_map.mp hr2
      obtain ⟨P, hP, hPr⟩ := List.mem_map.mp hr
      obtain ⟨K, V⟩ := P
      obtain ⟨a1, a2, a3, a4, b1, b3, b2imp, c11, c12, c21, c22, c31, c32⟩ :=
        h (K, V) hP
      rw [← hr2q, ← hrq, ← hPr]
      simp only [dp]
      rw [maskPairF_colon_eval pat1Keys K.data V.data a4]
      by_cases hA1 : anyKeyCI pat1Keys K.data = true
      · rw [if_pos hA1]
        rw [maskPairF_colon_eval pat2Keys K.data "[MASKED]".data (by decide)]
        rw [ite_self]
        exact ⟨a2, a1, show ':' ∉ "[MASKED]".data by decide,
          show "[MASKED]".data ≠ [] by decide,
          show anyKeyCI pat3Keys "[MASKED]".data = false by decide,
          show tailsClean pat3Keys "[MASKED]".data = true by decide,
          fun hf _ => absurd hf (by simp [b3])⟩
      · rw [if_neg hA1]
        rw [maskPairF_colon_eval pat2Keys K.data V.data a4]
        by_cases hA2 : anyKeyCI pat2Keys K.data = true
        · rw [if_pos hA2]
          exact ⟨a2, a1, show ':' ∉ "[MASKED]".data by decide,
            show "[MASKED]".data ≠ [] by decide,
            show anyKeyCI pat3Keys "[MASKED]".data = false by decide,
            show tailsClean pat3Keys "[MASKED]".data = true by decide,
            fun hf _ => absurd hf (by simp [b3])⟩
        · rw [if_neg hA2]
          exact ⟨a2, a1, a4, a3, c31, c32, fun hf _ => absurd hf (by simp [b3])⟩
    rw [maskScan_pairs pat3Keys Char.isDigit msisdnRepl hkeys3 hdg _ hps3]
    have hvne2 : ∀ p ∈ (p0 :: M0).map maskPair, p.2 ≠ "" := by
      intro q hq
      obtain ⟨P, hP, hPq⟩ := List.mem_map.mp hq
      obtain ⟨K, V⟩ := P
      obtain ⟨a1, a2, a3, a4, _, _, _, _, _, _, _, _, _⟩ := h (K, V) hP
      rw [← hPq]
      by_cases h12 : anyKeyCI pat1Keys K.data = true ∨
          anyKeyCI pat2Keys K.data = true
      · simp only [maskPair]
        rw [if_pos h12]
        decide
      · by_cases h3c : anyKeyCI pat3Keys K.data = true ∧
            V.data.all Char.isDigit = true
        · simp only [maskPair]
          rw [if_neg h12, if_pos h3c]
          exact strMk_ne_empty (msisdnRepl_ne_nil V.data)
        · simp only [maskPair]
          rw [if_neg h12, if_neg h3c]
          intro he
          exact a3 (by rw [he])
    have hrdata := buildKVString_data ((p0 :: M0).map maskPair) hvne2
    rw [← strMk_data (buildKVString ((p0 :: M0).map maskPair)), hrdata]
    congr 1
    rw [show pairsData ((p0 :: M0).map maskPair)
        = ((p0 :: M0).map maskPair).map dp from rfl]
    rw [show pairsData (p0 :: M0) = (p0 :: M0).map dp from rfl]
    rw [List.map_map, List.map_map, List.map_map, List.map_map]
    refine congrArg encPairs (List.map_congr_left ?_)
    intro P hP
    obtain ⟨K, V⟩ := P
    obtain ⟨a1, a2, a3, a4, b1, b3, b2imp, c11, c12, c21, c22, c31, c32⟩ :=
      h (K, V) hP
    show maskPairF pat3Keys Char.isDigit msisdnRepl
        (maskPairF pat2Keys notColon maskedRepl
          (maskPairF pat1Keys notColon maskedRepl (dp (K, V))))
      = dp (maskPair (K, V))
    simp only [dp]
    rw [maskPairF_colon_eval pat1Keys K.data V.data a4]
    by_cases hA1 : anyKeyCI pat1Keys K.data = true
    · rw [if_pos hA1]
      rw [maskPairF_colon_eval pat2Keys K.data "[MASKED]".data (by decide)]
      rw [ite_self]
      rw [maskPairF_digit_eval K.data "[MASKED]".data]
      rw [if_neg (fun hc => absurd hc.2 (by decide))]
      rw [show maskPair (K, V) = (K,
        if anyKeyCI pat1Keys K.data = true ∨ anyKeyCI pat2Keys K.data = true
        then "[MASKED]"
        else if anyKeyCI pat3Keys K.data = true ∧
            V.data.all Char.isDigit = true
        then String.mk (msisdnRepl V.data)
        else V) from rfl]
      rw [if_pos (Or.inl hA1)]
    · rw [if_neg hA1]
      rw [maskPairF_colon_eval pat2Keys K.data V.data a4]
      rw [show maskPair (K, V) = (K,
        if anyKeyCI pat1Keys K.data = true ∨ anyKeyCI pat2Keys K.data = true
        then "[MASKED]"
        else if anyKeyCI pat3Keys K.data = true ∧
            V.data.all Char.isDigit = true
        then String.mk (msisdnRepl V.data)
        else V) from rfl]
      by_cases hA2 : anyKeyCI pat2Keys K.data = true
      · rw [if_pos hA2]
        rw [maskPairF_digit_eval K.data "[MASKED]".data]
        rw [if_neg (fun hc => absurd hc.2 (by decide))]
        rw [if_pos (Or.inr hA2)]
      · rw [if_neg hA2]
        rw [maskPairF_digit_eval K.data V.data]
        rw [if_neg (show ¬(anyKeyCI pat1Keys K.data = true ∨
          anyKeyCI pat2Keys K.data = true) from fun hc => hc.elim hA1 hA2)]
        by_cases hA3 : anyKeyCI pat3Keys K.data = true ∧
            V.data.all Char.isDigit = true
        · rw [if_pos hA3, if_pos hA3]
        · rw [if_neg hA3, if_neg hA3]

/-- Witness for the corrected C7 at a three-tuple map: the `LOGINMPIN`
value is fully masked, the twelve-digit `MOBILENUMBER` keeps its first and
last three digits, and the unrelated `REF` tuple is untouched. -/
theorem C7_mask_per_tuple_witness :
    (∀ p ∈ ([("LOGINMPIN", "1234"), ("MOBILENUMBER", "254722000111"),
        ("REF", "abc99")] : List (String × String)), MaskAligned p) ∧
    maskSensitiveData (buildKVString [("LOGINMPIN", "1234"),
        ("MOBILENUMBER", "254722000111"), ("REF", "abc99")]) =
      buildKVString (([("LOGINMPIN", "1234"),
        ("MOBILENUMBER", "254722000111"),
        ("REF", "abc99")] : List (String × String)).map maskPair) :=
  ⟨by decide, C7_mask_per_tuple _ (by decide)⟩

end Sidian
